import Mathlib

/-!
# PangGuai-Web backend: verification of the task execution engine

This file gives a shallow embedding of the core of the PangGuai-Web backend
(`backend/core/client.py`, `backend/core/runner.py`, `backend/manager.py`,
with the legacy engine `backend/task_engine.py` where relevant) and settles
the frozen claims about it.

Conventions of the embedding:

* Python strings are modelled as Lean `String` (logically a list of
  characters); Python string slicing and `split` are re-implemented on the
  character list so they can be reasoned about.
* Machine/JSON integers are `Int`, counters are `Nat`.
* The asynchronous runner is modelled as a state-passing interpreter over an
  oracle environment (`Env`) that supplies, per outgoing HTTP call, the raw
  transport outcome, and per `random.randint` use, a random draw.  Virtual
  time advances at suspension points (network calls and pacing waits), and a
  `stop`/cancel request at virtual time `s` is observed exactly as asyncio
  observes it: a pending or subsequent `await` raises.
* Fallible paths return a `Res` value that carries the state at the point of
  the raise, mirroring `InterruptedError` / `asyncio.CancelledError` and
  `RuntimeError("Token 失效")`.
-/

namespace PangGuai

/-! ## SHA-256 (the hash used by `hashlib.sha256(...).hexdigest()`)

`core/utils.py` and `task_engine.py` define `sha256_encrypt(data)` as the
lowercase hex digest of SHA-256 over the UTF-8 encoding of `data`.  The hash
itself lives in Python's standard library; it is embedded here as the
standard FIPS 180-4 SHA-256 over `Nat` words reduced mod 2^32. -/

/-- Reduce to a 32-bit word. -/
def w32 (x : Nat) : Nat := x % 4294967296

/-- Right rotation of a 32-bit word by `n` bits. -/
def rotr (n x : Nat) : Nat := w32 ((x >>> n) ||| (x <<< (32 - n)))

/-- Big sigma-0 of SHA-256. -/
def bSig0 (x : Nat) : Nat := (rotr 2 x) ^^^ (rotr 13 x) ^^^ (rotr 22 x)

/-- Big sigma-1 of SHA-256. -/
def bSig1 (x : Nat) : Nat := (rotr 6 x) ^^^ (rotr 11 x) ^^^ (rotr 25 x)

/-- Small sigma-0 of SHA-256. -/
def sSig0 (x : Nat) : Nat := (rotr 7 x) ^^^ (rotr 18 x) ^^^ (x >>> 3)

/-- Small sigma-1 of SHA-256. -/
def sSig1 (x : Nat) : Nat := (rotr 17 x) ^^^ (rotr 19 x) ^^^ (x >>> 10)

/-- The SHA-256 choice function. -/
def chF (x y z : Nat) : Nat := (x &&& y) ^^^ ((x ^^^ 4294967295) &&& z)

/-- The SHA-256 majority function. -/
def majF (x y z : Nat) : Nat := (x &&& y) ^^^ (x &&& z) ^^^ (y &&& z)

/-- The 64 SHA-256 round constants. -/
def sha256K : List Nat :=
  [1116352408, 1899447441, 3049323471, 3921009573, 961987163,
   1508970993, 2453635748, 2870763221, 3624381080, 310598401,
   607225278, 1426881987, 1925078388, 2162078206, 2614888103,
   3248222580, 3835390401, 4022224774, 264347078, 604807628,
   770255983, 1249150122, 1555081692, 1996064986, 2554220882,
   2821834349, 2952996808, 3210313671, 3336571891, 3584528711,
   113926993, 338241895, 666307205, 773529912, 1294757372,
   1396182291, 1695183700, 1986661051, 2177026350, 2456956037,
   2730485921, 2820302411, 3259730800, 3345764771, 3516065817,
   3600352804, 4094571909, 275423344, 430227734, 506948616,
   659060556, 883997877, 958139571, 1322822218, 1537002063,
   1747873779, 1955562222, 2024104815, 2227730452, 2361852424,
   2428436474, 2756734187, 3204031479, 3329325298]

/-- The initial SHA-256 hash state. -/
def sha256H0 : List Nat :=
  [1779033703, 3144134277, 1013904242, 2773480762,
   1359893119, 2600822924, 528734635, 1541459225]

/-- UTF-8 encoding of one character (code point) as bytes. -/
def utf8Char (c : Char) : List Nat :=
  let n := c.toNat
  if n < 0x80 then [n]
  else if n < 0x800 then
    [0xC0 ||| (n >>> 6), 0x80 ||| (n &&& 0x3F)]
  else if n < 0x10000 then
    [0xE0 ||| (n >>> 12), 0x80 ||| ((n >>> 6) &&& 0x3F), 0x80 ||| (n &&& 0x3F)]
  else
    [0xF0 ||| (n >>> 18), 0x80 ||| ((n >>> 12) &&& 0x3F),
     0x80 ||| ((n >>> 6) &&& 0x3F), 0x80 ||| (n &&& 0x3F)]

/-- UTF-8 encoding of a string, as Python's `str.encode("utf-8")`. -/
def utf8Bytes (s : String) : List Nat := (s.data.map utf8Char).flatten

/-- Big-endian byte rendering of `n` in `k` bytes. -/
def beBytes (k n : Nat) : List Nat :=
  (List.range k).map (fun i => (n >>> (8 * (k - 1 - i))) % 256)

/-- SHA-256 padding: append `0x80`, zero bytes to 56 mod 64, then the
bit length in 8 big-endian bytes. -/
def sha256Pad (m : List Nat) : List Nat :=
  let z := (119 - m.length % 64) % 64
  m ++ [0x80] ++ List.replicate z 0 ++ beBytes 8 (8 * m.length)

/-- Read the 32-bit big-endian word at word index `i` of a byte chunk. -/
def beWord (chunk : List Nat) (i : Nat) : Nat :=
  chunk.getD (4 * i) 0 * 16777216 + chunk.getD (4 * i + 1) 0 * 65536 +
    chunk.getD (4 * i + 2) 0 * 256 + chunk.getD (4 * i + 3) 0

/-- Extend a message schedule by `n` further words. -/
def extendW (w : List Nat) : Nat → List Nat
  | 0 => w
  | n + 1 =>
    let L := w.length
    let nxt := w32 (sSig1 (w.getD (L - 2) 0) + w.getD (L - 7) 0 +
      sSig0 (w.getD (L - 15) 0) + w.getD (L - 16) 0)
    extendW (w ++ [nxt]) n

/-- The 64-word message schedule of one 64-byte chunk. -/
def sha256Schedule (chunk : List Nat) : List Nat :=
  extendW ((List.range 16).map (beWord chunk)) 48

/-- One SHA-256 compression round on the 8-word working state. -/
def sha256Round (st : List Nat) (kw : Nat × Nat) : List Nat :=
  match st with
  | [a, b, c, d, e, f, g, h] =>
    let t1 := w32 (h + bSig1 e + chF e f g + kw.1 + kw.2)
    let t2 := w32 (bSig0 a + majF a b c)
    [w32 (t1 + t2), a, b, c, w32 (d + t1), e, f, g]
  | other => other

/-- Process one 64-byte chunk, updating the 8-word hash state. -/
def sha256Chunk (h : List Nat) (chunk : List Nat) : List Nat :=
  let w := sha256Schedule chunk
  let st := (sha256K.zip w).foldl sha256Round h
  (h.zip st).map (fun p => w32 (p.1 + p.2))

/-- Split a byte list into 64-byte chunks. -/
def chunks64 : List Nat → List (List Nat)
  | [] => []
  | c :: rest => (c :: rest).take 64 :: chunks64 (rest.drop 63)
termination_by m => m.length
decreasing_by
  simp only [List.length_drop, List.length_cons]
  omega

/-- SHA-256 digest of a byte list, as 8 32-bit words. -/
def sha256Words (m : List Nat) : List Nat :=
  (chunks64 (sha256Pad m)).foldl sha256Chunk sha256H0

/-- Lowercase hex rendering of a 32-bit word, 8 digits. -/
def hexWord (n : Nat) : String :=
  let s := String.mk (Nat.toDigits 16 n)
  String.mk (List.replicate (8 - s.length) '0') ++ s

/-- Embedding of `sha256_encrypt` (`core/utils.py` / `task_engine.py`):
lowercase hex SHA-256 digest of the UTF-8 encoding of `data`. -/
def sha256_encrypt (data : String) : String :=
  String.join ((sha256Words (utf8Bytes data)).map hexWord)

/-! ## Python string primitives

Python strings are sequences of characters; the slice `s[n:]` and the
substring operators `in` / `split` used by the signing code are modelled on
the character list of a Lean `String`. -/

/-- Python slice `s[n:]`. -/
def pyDrop (n : Nat) (s : String) : String := String.mk (s.data.drop n)

/-- Index of the first occurrence of `sep` in `s`, if any (leftmost match,
as Python `str.find` for a nonempty pattern). -/
def findOcc (sep : List Char) : List Char → Option Nat
  | [] => none
  | c :: rest =>
    if sep.isPrefixOf (c :: rest) then some 0
    else (findOcc sep rest).map (· + 1)

/-- Python substring test `needle in hay`. -/
def strContains (hay needle : String) : Bool :=
  (findOcc needle.data hay.data).isSome

/-- The remote host string that `_sign_android` / `_sign_alipay` split on. -/
def hostChars : List Char := "userapi.qiekj.com".data

/-- An occurrence index returned by `findOcc` lies inside the list. -/
theorem findOcc_lt (sep : List Char) :
    ∀ s i, findOcc sep s = some i → i < s.length := by
  intro s
  induction s with
  | nil => intro i h; simp [findOcc] at h
  | cons c rest ih =>
    intro i h
    simp only [findOcc] at h
    split at h
    · cases h
      simp
    · rcases homap : findOcc sep rest with _ | j <;> rw [homap] at h
      · simp at h
      · simp only [Option.map_some', Option.some.injEq] at h
        subst h
        have := ih j homap
        simp only [List.length_cons]
        omega

/-- Python `url.split("userapi.qiekj.com")`, specialised to the host
separator (17 characters) used by `core/client.py`. -/
def splitHost (s : List Char) : List (List Char) :=
  match h : findOcc hostChars s with
  | none => [s]
  | some i => s.take i :: splitHost (s.drop (i + 17))
termination_by s.length
decreasing_by
  simp only [List.length_drop]
  have hlt : i < s.length := findOcc_lt hostChars s i h
  omega

/-! ## Request signing

`core/client.py` (`PangGuaiClient._sign_android` / `_sign_alipay`) builds the
string to hash from the URL with the part after the host, with its first
character (the leading `/`) dropped.  `task_engine.py`
(`PangGuaiRunner.sign_android` / `sign_alipay`) instead uses `url[25:]`,
which for the canonical `https://userapi.qiekj.com/...` URLs keeps the
leading `/`. -/

/-- Embedding of the path extraction in `PangGuaiClient._sign_android` and
`_sign_alipay`: if the host occurs in the URL, the piece after its first
occurrence (Python `url.split("userapi.qiekj.com")[1]`), else the URL
itself. -/
def stripHost (url : String) : String :=
  match splitHost url.data with
  | _ :: p :: _ => String.mk p
  | _ => url

/-- The fixed Android-channel secret of `core/client.py` and
`task_engine.py`. -/
def androidSecret : String := "nFU9pbG8YQoAe1kFh+E7eyrdlSLglwEJeA0wwHB1j5o="

/-- The fixed Alipay-channel secret of `core/client.py` and
`task_engine.py`. -/
def alipaySecret : String := "Ew+ZSuppXZoA9YzBHgHmRvzt0Bw1CpwlQQtSl49QNhY="

/-- The string hashed by `PangGuaiClient._sign_android` (`core/client.py`
lines 46-49): the f-string with the secret inlined, the timestamp, token and
the host-stripped path with its leading character removed (`path_part[1:]`). -/
def signRawAndroid (token timestamp url : String) : String :=
  "appSecret=nFU9pbG8YQoAe1kFh+E7eyrdlSLglwEJeA0wwHB1j5o=&channel=android_app&timestamp="
    ++ timestamp ++ "&token=" ++ token ++ "&version=1.60.3&" ++ pyDrop 1 (stripHost url)

/-- Embedding of `PangGuaiClient._sign_android`. -/
def sign_android (token timestamp url : String) : String :=
  sha256_encrypt (signRawAndroid token timestamp url)

/-- The string hashed by `PangGuaiClient._sign_alipay` (`core/client.py`
lines 58-61). -/
def signRawAlipay (token timestamp url : String) : String :=
  "appSecret=Ew+ZSuppXZoA9YzBHgHmRvzt0Bw1CpwlQQtSl49QNhY=&channel=alipay&timestamp="
    ++ timestamp ++ "&token=" ++ token ++ "&version=1.60.3&" ++ pyDrop 1 (stripHost url)

/-- Embedding of `PangGuaiClient._sign_alipay`. -/
def sign_alipay (token timestamp url : String) : String :=
  sha256_encrypt (signRawAlipay token timestamp url)

/-- The string hashed by the legacy `PangGuaiRunner.sign_android`
(`task_engine.py` lines 97-100): same fields, but the path is `url[25:]`,
which keeps the leading slash of a canonical URL. -/
def signRawAndroidSync (token timestamp url : String) : String :=
  "appSecret=nFU9pbG8YQoAe1kFh+E7eyrdlSLglwEJeA0wwHB1j5o=&channel=android_app&timestamp="
    ++ timestamp ++ "&token=" ++ token ++ "&version=1.60.3&" ++ pyDrop 25 url

/-- Embedding of the legacy `PangGuaiRunner.sign_android`. -/
def sign_android_sync (token timestamp url : String) : String :=
  sha256_encrypt (signRawAndroidSync token timestamp url)

/-- The string hashed by the legacy `PangGuaiRunner.sign_alipay`
(`task_engine.py` lines 104-107). -/
def signRawAlipaySync (token timestamp url : String) : String :=
  "appSecret=Ew+ZSuppXZoA9YzBHgHmRvzt0Bw1CpwlQQtSl49QNhY=&channel=alipay&timestamp="
    ++ timestamp ++ "&token=" ++ token ++ "&version=1.60.3&" ++ pyDrop 25 url

/-- Embedding of the legacy `PangGuaiRunner.sign_alipay`. -/
def sign_alipay_sync (token timestamp url : String) : String :=
  sha256_encrypt (signRawAlipaySync token timestamp url)

/-- Modelled from the spec: the exact signature input string
`appSecret={secret}&channel={channel}&timestamp={timestamp}&token={token}&version={fixedVersion}&{path}`
with the fixed version `1.60.3`, used to compare the implementations against
the spec's format. -/
def signSpecString (secret channel timestamp token path : String) : String :=
  "appSecret=" ++ secret ++ "&channel=" ++ channel ++ "&timestamp=" ++ timestamp
    ++ "&token=" ++ token ++ "&version=1.60.3&" ++ path

/-! ### Facts about the path extraction -/

/-- Unfolding of `splitHost` when the host does not occur. -/
theorem splitHost_of_none {s : List Char} (h : findOcc hostChars s = none) :
    splitHost s = [s] := by
  rw [splitHost]
  split
  · rfl
  · rename_i i hi
    rw [h] at hi
    cases hi

/-- Unfolding of `splitHost` at the first occurrence of the host. -/
theorem splitHost_of_some {s : List Char} {i : Nat}
    (h : findOcc hostChars s = some i) :
    splitHost s = s.take i :: splitHost (s.drop (i + 17)) := by
  rw [splitHost]
  split
  · rename_i hn
    rw [h] at hn
    cases hn
  · rename_i j hj
    rw [h] at hj
    cases hj
    rfl

/-- Stepping `findOcc` over a character that cannot start a match. -/
theorem findOcc_cons_of_ne (sep : List Char) (a : Char) (s : List Char)
    (hsep : sep ≠ []) (ha : sep.head? ≠ some a) :
    findOcc sep (a :: s) = (findOcc sep s).map (· + 1) := by
  have hpre : sep.isPrefixOf (a :: s) = false := by
    cases sep with
    | nil => exact absurd rfl hsep
    | cons x xs =>
      simp only [List.head?] at ha
      simp only [List.isPrefixOf, Bool.and_eq_false_iff]
      left
      simpa using fun hxa => ha (by rw [hxa])
  simp [findOcc, hpre]

/-- The occurrence index is zero when the pattern is an actual prefix. -/
theorem findOcc_of_pfx (sep s : List Char) (hsep : sep ≠ [])
    (h : sep.isPrefixOf s = true) : findOcc sep s = some 0 := by
  cases s with
  | nil =>
    cases sep with
    | nil => exact absurd rfl hsep
    | cons x xs => simp [List.isPrefixOf] at h
  | cons c rest => simp [findOcc, h]

/-- The first occurrence of the host in a canonical URL is at index 8. -/
theorem findOcc_canonical (tail : List Char) :
    findOcc hostChars (("https://userapi.qiekj.com/" : String).data ++ tail)
      = some 8 := by
  rw [show ("https://userapi.qiekj.com/" : String).data
      = 'h' :: 't' :: 't' :: 'p' :: 's' :: ':' :: '/' :: '/' :: 'u' :: 's' :: 'e'
        :: 'r' :: 'a' :: 'p' :: 'i' :: '.' :: 'q' :: 'i' :: 'e' :: 'k' :: 'j'
        :: '.' :: 'c' :: 'o' :: 'm' :: '/' :: [] from by decide]
  simp only [List.cons_append, List.nil_append]
  rw [findOcc_cons_of_ne _ _ _ (by decide) (by decide), findOcc_cons_of_ne _ _ _ (by decide) (by decide),
    findOcc_cons_of_ne _ _ _ (by decide) (by decide), findOcc_cons_of_ne _ _ _ (by decide) (by decide),
    findOcc_cons_of_ne _ _ _ (by decide) (by decide), findOcc_cons_of_ne _ _ _ (by decide) (by decide),
    findOcc_cons_of_ne _ _ _ (by decide) (by decide), findOcc_cons_of_ne _ _ _ (by decide) (by decide)]
  rw [show ('u' :: 's' :: 'e' :: 'r' :: 'a' :: 'p' :: 'i' :: '.' :: 'q' :: 'i'
        :: 'e' :: 'k' :: 'j' :: '.' :: 'c' :: 'o' :: 'm' :: '/' :: tail : List Char)
      = hostChars ++ ('/' :: tail) from rfl]
  rw [findOcc_of_pfx hostChars _ (by decide)
    (by rw [List.isPrefixOf_iff_prefix]; exact List.prefix_append _ _)]
  rfl

/-- Splitting a canonical URL on the host yields the scheme piece and the
absolute path, provided the host does not reoccur in the path. -/
theorem stripHost_canonical (rest : String)
    (h : findOcc hostChars rest.data = none) :
    stripHost ("https://userapi.qiekj.com/" ++ rest) = "/" ++ rest := by
  unfold stripHost
  rw [String.data_append, splitHost_of_some (findOcc_canonical rest.data)]
  have hdrop : (("https://userapi.qiekj.com/" : String).data ++ rest.data).drop (8 + 17)
      = '/' :: rest.data := rfl
  rw [hdrop]
  have hnone : findOcc hostChars ('/' :: rest.data) = none := by
    rw [findOcc_cons_of_ne _ _ _ (by decide) (by decide), h]
    rfl
  rw [splitHost_of_none hnone]
  apply String.ext
  simp [String.data_append]

/-- Python slice `[1:]` of an absolute path drops exactly the leading
slash. -/
theorem pyDrop_one_slash (rest : String) : pyDrop 1 ("/" ++ rest) = rest := by
  apply String.ext
  simp only [pyDrop, String.data_append]
  rfl

/-! ### Sensitivity of the signature input string -/

/-- The signature input determines the timestamp (all else fixed). -/
theorem signSpecString_inj_timestamp {s c t₁ t₂ k p : String}
    (h : signSpecString s c t₁ k p = signSpecString s c t₂ k p) : t₁ = t₂ := by
  have h' := congrArg String.data h
  simp only [signSpecString, String.data_append, List.append_assoc] at h'
  exact String.ext (List.append_cancel_right
    (List.append_cancel_left (List.append_cancel_left (List.append_cancel_left
      (List.append_cancel_left (List.append_cancel_left h'))))))

/-- The signature input determines the token (all else fixed). -/
theorem signSpecString_inj_token {s c t k₁ k₂ p : String}
    (h : signSpecString s c t k₁ p = signSpecString s c t k₂ p) : k₁ = k₂ := by
  have h' := congrArg String.data h
  simp only [signSpecString, String.data_append, List.append_assoc] at h'
  exact String.ext (List.append_cancel_right
    (List.append_cancel_left (List.append_cancel_left (List.append_cancel_left
      (List.append_cancel_left (List.append_cancel_left (List.append_cancel_left
        (List.append_cancel_left h'))))))))

/-- The signature input determines the path (all else fixed). -/
theorem signSpecString_inj_path {s c t k p₁ p₂ : String}
    (h : signSpecString s c t k p₁ = signSpecString s c t k p₂) : p₁ = p₂ := by
  have h' := congrArg String.data h
  simp only [signSpecString, String.data_append, List.append_assoc] at h'
  exact String.ext
    (List.append_cancel_left (List.append_cancel_left (List.append_cancel_left
      (List.append_cancel_left (List.append_cancel_left (List.append_cancel_left
        (List.append_cancel_left (List.append_cancel_left (List.append_cancel_left
          h')))))))))

/-- The Android-channel signature input of `core/client.py` is exactly the
spec format string, for canonical URLs whose path does not repeat the host. -/
theorem signRawAndroid_format (rest token timestamp : String)
    (h : findOcc hostChars rest.data = none) :
    signRawAndroid token timestamp ("https://userapi.qiekj.com/" ++ rest)
      = signSpecString androidSecret "android_app" timestamp token rest := by
  unfold signRawAndroid signSpecString androidSecret
  rw [stripHost_canonical rest h, pyDrop_one_slash]
  congr 1

/-- The Alipay-channel signature input of `core/client.py` is exactly the
spec format string, for canonical URLs whose path does not repeat the host. -/
theorem signRawAlipay_format (rest token timestamp : String)
    (h : findOcc hostChars rest.data = none) :
    signRawAlipay token timestamp ("https://userapi.qiekj.com/" ++ rest)
      = signSpecString alipaySecret "alipay" timestamp token rest := by
  unfold signRawAlipay signSpecString alipaySecret
  rw [stripHost_canonical rest h, pyDrop_one_slash]
  congr 1

/-- Concrete evaluation of the path extraction on an `http` URL. -/
theorem stripHost_http_task :
    stripHost "http://userapi.qiekj.com/task/list" = "/task/list" := by
  unfold stripHost
  have h1 : findOcc hostChars ("http://userapi.qiekj.com/task/list" : String).data
      = some 7 := by decide
  rw [splitHost_of_some h1]
  have h2 : findOcc hostChars
      (List.drop (7 + 17) ("http://userapi.qiekj.com/task/list" : String).data)
      = none := by decide
  rw [splitHost_of_none h2]
  decide

/-- Concrete evaluation of the path extraction on the `https` URL. -/
theorem stripHost_https_task :
    stripHost "https://userapi.qiekj.com/task/list" = "/task/list" := by
  unfold stripHost
  have h1 : findOcc hostChars ("https://userapi.qiekj.com/task/list" : String).data
      = some 8 := by decide
  rw [splitHost_of_some h1]
  have h2 : findOcc hostChars
      (List.drop (8 + 17) ("https://userapi.qiekj.com/task/list" : String).data)
      = none := by decide
  rw [splitHost_of_none h2]
  decide

/-- C3 (amended).  For canonical URLs (scheme `https`, host
`userapi.qiekj.com`, path not repeating the host) the async client's
channel signatures hash exactly the spec's format string
`appSecret={secret}&channel={channel}&timestamp={timestamp}&token={token}&version=1.60.3&{path}`
with the leading `/` removed; the two channels use distinct fixed secrets;
the signature is a pure deterministic function of its inputs; and changing
the timestamp, the token, or the path alone always changes the hashed input
string.  Two URLs that strip to the same path (for example differing only in
the scheme) produce the same signature; the legacy sync engine's signature
input keeps the leading `/` (see the counterexample). -/
theorem C3_signature_scheme :
    (∀ rest token timestamp, findOcc hostChars rest.data = none →
      sign_android token timestamp ("https://userapi.qiekj.com/" ++ rest)
          = sha256_encrypt (signSpecString androidSecret "android_app" timestamp token rest)
        ∧ sign_alipay token timestamp ("https://userapi.qiekj.com/" ++ rest)
          = sha256_encrypt (signSpecString alipaySecret "alipay" timestamp token rest))
    ∧ androidSecret ≠ alipaySecret
    ∧ (∀ t₁ t₂ k₁ k₂ u₁ u₂, t₁ = t₂ → k₁ = k₂ → u₁ = u₂ →
        sign_android k₁ t₁ u₁ = sign_android k₂ t₂ u₂)
    ∧ (∀ s c k p t₁ t₂,
        signSpecString s c t₁ k p = signSpecString s c t₂ k p → t₁ = t₂)
    ∧ (∀ s c t p k₁ k₂,
        signSpecString s c t k₁ p = signSpecString s c t k₂ p → k₁ = k₂)
    ∧ (∀ s c t k p₁ p₂,
        signSpecString s c t k p₁ = signSpecString s c t k p₂ → p₁ = p₂)
    ∧ sign_android "tok" "1" "http://userapi.qiekj.com/task/list"
        = sign_android "tok" "1" "https://userapi.qiekj.com/task/list" := by
  refine ⟨?_, by decide, ?_, ?_, ?_, ?_, ?_⟩
  · intro rest token timestamp h
    exact ⟨congrArg sha256_encrypt (signRawAndroid_format rest token timestamp h),
      congrArg sha256_encrypt (signRawAlipay_format rest token timestamp h)⟩
  · intro t₁ t₂ k₁ k₂ u₁ u₂ ht hk hu
    rw [ht, hk, hu]
  · intro s c k p t₁ t₂ h
    exact signSpecString_inj_timestamp h
  · intro s c t p k₁ k₂ h
    exact signSpecString_inj_token h
  · intro s c t k p₁ p₂ h
    exact signSpecString_inj_path h
  · show sha256_encrypt _ = sha256_encrypt _
    unfold signRawAndroid
    rw [stripHost_http_task, stripHost_https_task]

/-- C3 witness: the scheme theorem applied at a concrete timestamp, token
and canonical URL. -/
theorem C3_signature_scheme_witness :
    sign_android "tok" "123" "https://userapi.qiekj.com/user/info"
      = sha256_encrypt
          (signSpecString androidSecret "android_app" "123" "tok" "user/info") :=
  (C3_signature_scheme.1 "user/info" "tok" "123" (by decide)).1

/-- C3 counterexample: the legacy `PangGuaiRunner.sign_android` of
`task_engine.py` (cited by the claim) hashes `url[25:]`, which keeps the
leading `/` of a canonical URL, so the string it hashes is not the claimed
exact format string with the leading `/` removed. -/
theorem C3_counterexample :
    signRawAndroidSync "tok" "1700000000000" "https://userapi.qiekj.com/user/info"
      ≠ signSpecString androidSecret "android_app" "1700000000000" "tok" "user/info" := by
  decide

/-! ## The run registry (`manager.py`, `TaskManager`)

`TaskManager.active_tasks` is a dict from user id to the live `TaskHandle`.
`start_task` (lines 60-74) checks membership, raises
`ValueError("Task already running")` when a handle is present, and otherwise
registers the new handle; the whole check-and-register segment contains no
`await`, so under asyncio's cooperative scheduling it executes atomically
and concurrent `start_task` calls interleave as a sequence of such atomic
segments.  The `finally` block of `_runner_wrapper` (lines 104-107) removes
the entry on every terminal outcome, but only if it still maps to this
handle.  The dict is modelled as an association list of
`(user_id, handle_id)` pairs. -/

/-- An identity-to-handle registry (the `active_tasks` dict). -/
abbrev Registry := List (Nat × Nat)

/-- Dict lookup `active_tasks.get(user_id)`. -/
def lookupReg : Registry → Nat → Option Nat
  | [], _ => none
  | (u, h) :: rest, v => if u = v then some h else lookupReg rest v

/-- Embedding of `TaskManager.start_task`: reject with
`Task already running` when the identity has a live handle, otherwise
register the fresh handle (the registration happens before the runner task
is spawned). -/
def start_task (reg : Registry) (u hid : Nat) : Except String Registry :=
  if (lookupReg reg u).isSome then .error "Task already running"
  else .ok ((u, hid) :: reg)

/-- Embedding of the `finally` cleanup in `_runner_wrapper`: on a terminal
outcome, delete the identity's entry if it still maps to this handle. -/
def finish_task (reg : Registry) (u hid : Nat) : Registry :=
  if lookupReg reg u = some hid then reg.filter (fun p => p.1 != u) else reg

/-- Embedding of `TaskManager.stop_task`'s return value: true exactly when
a live handle exists (its stop event is then set and the task cancelled). -/
def stop_task (reg : Registry) (u : Nat) : Bool := (lookupReg reg u).isSome

/-- A sequence of `start_task` calls for one identity, serialised in an
arbitrary order (asyncio runs the atomic segments one after another);
returns the final registry and how many calls were accepted. -/
def runStarts (reg : Registry) (u : Nat) : List Nat → Registry × Nat
  | [] => (reg, 0)
  | hid :: rest =>
    match start_task reg u hid with
    | .ok reg' => ((runStarts reg' u rest).1, (runStarts reg' u rest).2 + 1)
    | .error _ => runStarts reg u rest

/-- Number of live handles a registry holds for one identity. -/
def liveCount (reg : Registry) (u : Nat) : Nat :=
  reg.countP (fun p => p.1 == u)

/-- Registries reachable from the empty one by start/finish transitions. -/
inductive Reachable : Registry → Prop
  | init : Reachable []
  | start {reg u hid reg'} : Reachable reg → start_task reg u hid = .ok reg' →
      Reachable reg'
  | finish {reg} (u hid : Nat) : Reachable reg →
      Reachable (finish_task reg u hid)

/-- A `none` lookup means no entry for the identity at all. -/
theorem lookupReg_none_iff (reg : Registry) (u : Nat) :
    lookupReg reg u = none ↔ liveCount reg u = 0 := by
  induction reg with
  | nil => simp [lookupReg, liveCount]
  | cons p rest ih =>
    obtain ⟨v, h⟩ := p
    simp only [lookupReg, liveCount, List.countP_cons] at *
    by_cases hv : v = u
    · subst hv
      simp
    · simpa [hv] using ih

/-- Filtering an identity out empties its lookup. -/
theorem lookupReg_filter_ne (reg : Registry) (u : Nat) :
    lookupReg (reg.filter (fun p => p.1 != u)) u = none := by
  induction reg with
  | nil => simp [lookupReg]
  | cons p rest ih =>
    obtain ⟨v, h⟩ := p
    by_cases hv : v = u
    · subst hv
      simpa [List.filter_cons] using ih
    · simpa [List.filter_cons, hv, lookupReg] using ih

/-- Filtering never increases the number of live handles. -/
theorem liveCount_filter_le (reg : Registry) (q : Nat × Nat → Bool) (u : Nat) :
    liveCount (reg.filter q) u ≤ liveCount reg u := by
  induction reg with
  | nil => simp [liveCount]
  | cons p rest ih =>
    simp only [liveCount, List.countP_cons, List.filter] at *
    cases hq : q p <;> simp only [List.countP_cons] <;> omega

/-- Once an identity has a live handle, further starts for it are rejected
and change nothing. -/
theorem runStarts_rejected (u h : Nat) :
    ∀ hids (reg : Registry), lookupReg reg u = some h →
      runStarts reg u hids = (reg, 0) := by
  intro hids
  induction hids with
  | nil => intro reg _; rfl
  | cons hid rest ih =>
    intro reg hreg
    simp only [runStarts, start_task, hreg, Option.isSome_some, if_true]
    exact ih reg hreg

/-- Every registry reachable by start/finish transitions holds at most one
live handle per identity. -/
theorem reachable_liveCount_le_one {reg : Registry} (hr : Reachable reg) :
    ∀ u, liveCount reg u ≤ 1 := by
  induction hr with
  | init => intro u; simp [liveCount]
  | start hrr hok ih =>
    rename_i reg u₀ hid reg'
    intro u
    simp only [start_task] at hok
    cases hl : lookupReg reg u₀ with
    | some x => rw [hl] at hok; simp at hok
    | none =>
      rw [hl] at hok
      simp only [Option.isSome_none, Bool.false_eq_true, if_false] at hok
      cases hok
      simp only [liveCount, List.countP_cons]
      by_cases hu : u₀ = u
      · subst hu
        have h0 := (lookupReg_none_iff reg u₀).mp hl
        simp only [liveCount] at h0
        simp [h0]
      · have hle := ih u
        simp only [liveCount] at hle
        simpa [hu] using hle
  | finish u₀ hid hrr ih =>
    rename_i reg
    intro u
    unfold finish_task
    split
    · exact le_trans (liveCount_filter_le reg _ u) (ih u)
    · exact ih u

/-- C1: at most one live run handle exists per identity at any reachable
registry state; a start for an identity with a live handle is rejected with
the fixed `Task already running` error; among any serialisation of
concurrent start calls for one identity exactly one is accepted; and every
terminal outcome removes the handle via the `finally` cleanup, after which
a new start for the identity succeeds. -/
theorem C1_mutual_exclusion :
    (∀ reg u hid h, lookupReg reg u = some h →
       start_task reg u hid = .error "Task already running")
    ∧ (∀ (reg : Registry) u hids, lookupReg reg u = none → hids ≠ [] →
       (runStarts reg u hids).2 = 1)
    ∧ (∀ reg, Reachable reg → ∀ u, liveCount reg u ≤ 1)
    ∧ (∀ reg u hid, lookupReg reg u = some hid →
       lookupReg (finish_task reg u hid) u = none
       ∧ ∀ hid', ∃ reg', start_task (finish_task reg u hid) u hid' = .ok reg') := by
  refine ⟨?_, ?_, fun reg hr => reachable_liveCount_le_one hr, ?_⟩
  · intro reg u hid h hl
    simp [start_task, hl]
  · intro reg u hids hl hne
    cases hids with
    | nil => exact absurd rfl hne
    | cons hid rest =>
      simp only [runStarts, start_task, hl, Option.isSome_none,
        Bool.false_eq_true, if_false]
      rw [runStarts_rejected u hid rest ((u, hid) :: reg) (by simp [lookupReg])]
  · intro reg u hid hl
    have hnone : lookupReg (finish_task reg u hid) u = none := by
      unfold finish_task
      rw [if_pos hl]
      exact lookupReg_filter_ne reg u
    refine ⟨hnone, fun hid' => ⟨(u, hid') :: finish_task reg u hid, ?_⟩⟩
    simp [start_task, hnone]

/-- C1 witness: the mutual-exclusion theorem applied at concrete
registries. -/
theorem C1_mutual_exclusion_witness :
    start_task [(1, 5)] 1 6 = Except.error "Task already running"
    ∧ (runStarts [] 1 [10, 11, 12]).2 = 1
    ∧ lookupReg (finish_task [(1, 5)] 1 5) 1 = none :=
  ⟨C1_mutual_exclusion.1 [(1, 5)] 1 6 5 (by decide),
   C1_mutual_exclusion.2.1 [] 1 [10, 11, 12] (by decide) (by decide),
   (C1_mutual_exclusion.2.2.2 [(1, 5)] 1 5 (by decide)).1⟩

/-! ## Log fan-out and replay (`manager.py`, `TaskHandle.broadcast_log` and
`TaskManager.subscribe_logs`)

`broadcast_log` (lines 19-44) appends the line to `log_history` (dropping
the oldest line beyond 100) and then sends it to every attached subscriber.
`subscribe_logs` (lines 129-157) adds the websocket to the current handle's
subscriber set *first* and then replays `log_history` with one awaited
`send_text` per line; each `await` is a suspension point at which pending
`broadcast_log` tasks (spawned by the runner's `log_func` via
`asyncio.create_task`) may run.  The small-step model below captures one
subscriber's view: a `broadcast` step is one `broadcast_log` execution, a
`replayStep` is one iteration of the replay loop (reading
`log_history[pos]`, which reads the live, mutable list), `attach` is
`attach_handle` observing a (new) handle, and `startRun` is a new run
replacing the handle for the identity. -/

/-- One subscriber's view of a handle's log state. -/
structure SubSt where
  history : List String
  attachedCur : Bool
  pos : Nat
  delivered : List String
  deriving DecidableEq, Repr

/-- Initial subscriber state: no handle yet, nothing delivered. -/
def subInit : SubSt := ⟨[], false, 0, []⟩

/-- Interleaved events acting on a subscriber's view. -/
inductive LogEv
  | broadcast (msg : String)
  | attach
  | replayStep
  | startRun
  deriving DecidableEq, Repr

/-- Small-step semantics of the log fan-out as implemented. -/
def stepLog (st : SubSt) : LogEv → SubSt
  | .broadcast m =>
    let h := st.history ++ [m]
    let h := if h.length > 100 then h.drop 1 else h
    { st with
        history := h,
        delivered := if st.attachedCur then st.delivered ++ [m] else st.delivered }
  | .attach =>
    if st.attachedCur then st else { st with attachedCur := true, pos := 0 }
  | .replayStep =>
    match st.history.get? st.pos with
    | some l => { st with delivered := st.delivered ++ [l], pos := st.pos + 1 }
    | none => st
  | .startRun => { st with history := [], attachedCur := false }

/-- Run a trace of interleaved events from the initial state. -/
def runLog (evs : List LogEv) : SubSt := evs.foldl stepLog subInit

/-- The interleaving that exhibits the replay/live seam defect: two lines
exist, a subscriber attaches, replays one line, a third line is produced
mid-replay, and the replay then walks over it again. -/
def seamTrace : List LogEv :=
  [.broadcast "L1", .broadcast "L2", .attach, .replayStep,
   .broadcast "L3", .replayStep, .replayStep]

/-- C7 (failing input): with `seamTrace`, the code delivers
`[L1, L3, L2, L3]` — the line produced during replay is delivered twice and
out of order — while the claim requires exactly `[L1, L2, L3]`.  The
subscriber is added to the subscriber set before the buffered lines are
replayed, and the replay loop iterates the live `log_history` list, so a
`broadcast_log` running at one of the replay's `await send_text` suspension
points is sent once live and once again when the replay reaches it. -/
theorem C7_seam_duplicate :
    (runLog seamTrace).delivered = ["L1", "L3", "L2", "L3"]
    ∧ (runLog seamTrace).delivered.count "L3" = 2
    ∧ ¬ (runLog seamTrace).delivered = ["L1", "L2", "L3"] := by
  refine ⟨by decide, by decide, by decide⟩

/-! ## The async workflow runner (`core/runner.py`, `AsyncPangGuaiRunner`)

The runner is modelled as a state-passing interpreter.  An `Env` oracle
fixes, per outgoing HTTP call, the raw transport outcome (transport error,
or an HTTP status with a parsed JSON body), per `random.randint` use a
random draw, per call a network duration (capped by the client's fixed
15-second timeout), and the virtual time at which `stop_task` runs, if
ever.  `stop_task` both sets the runner's `stop_event` and cancels the
asyncio task, so from that time on every suspension point (`await`) raises:
`_check_stop` and `_sleep` observe the event, and a pending or later
network call is cancelled. -/

/-- A task item as the runner reads it from the `task/list` response
(`item.get(...)` views; an absent key is `none`). -/
structure TaskItem where
  title : String := ""
  type : Option Int := none
  taskCode : String := ""
  completedStatus : Option Int := none
  dailyTaskLimit : Option Int := none
  deriving DecidableEq, Repr

/-- A parsed JSON response body, as the `.get` views the runner uses:
`code`, `msg`, whether `data` is the literal `true`, and the
`integral` / `items` / `userName` / `totalIntegral` views of `data` with the
runner's defaults. -/
structure ApiResp where
  code : Int := 0
  msg : String := ""
  dataTrue : Bool := false
  integral : Int := 0
  items : List TaskItem := []
  userName : Option String := none
  totalIntegral : Int := 0
  deriving DecidableEq, Repr

/-- Raw transport outcome of one HTTP call, before the client classifies
it. -/
inductive RawResult
  | transportError
  | http (status : Nat) (body : ApiResp)
  deriving DecidableEq, Repr

/-- The oracle environment of one run. -/
structure Env where
  calls : Nat → RawResult
  rand : Nat → Nat
  durs : Nat → Nat
  stopAt : Option Nat

/-- Run options (`models.TaskOptions`). -/
structure TaskOptions where
  general : Bool := true
  video : Bool := true
  alipay : Bool := true
  deriving DecidableEq, Repr

/-- The result dict returned by `AsyncPangGuaiRunner.run`. -/
structure RunResult where
  username : Option String := none
  integral : Int := 0
  gain : Int := 0
  deriving DecidableEq, Repr

/-- The two raise paths out of the runner: `InterruptedError` /
`asyncio.CancelledError` (user stop) and `RuntimeError("Token 失效")`. -/
inductive Err
  | stopped
  | tokenExpired
  deriving DecidableEq, Repr

/-- Observable effects of a run: an outgoing call (with the `taskCode`
form field when present, and the channel), a log line, and a completed
pacing wait of a number of seconds. -/
inductive Event
  | call (url : String) (taskCode : Option String) (channel : String)
  | log (msg : String)
  | wait (secs : Nat)
  deriving DecidableEq, Repr

/-- Interpreter state: next call index, next random index, virtual time,
and the trace of effects so far. -/
structure RunSt where
  callIdx : Nat := 0
  randIdx : Nat := 0
  time : Nat := 0
  trace : List Event := []
  deriving DecidableEq, Repr

/-- Outcome of a monadic step: a value or a raise, in both cases with the
state at that point. -/
inductive Res (α : Type)
  | ok (a : α) (st : RunSt)
  | err (e : Err) (st : RunSt)
  deriving DecidableEq, Repr

/-- The value of a successful outcome. -/
def Res.value? {α : Type} : Res α → Option α
  | .ok a _ => some a
  | .err _ _ => none

/-- The state an outcome carries. -/
def Res.state {α : Type} : Res α → RunSt
  | .ok _ st => st
  | .err _ st => st

@[simp] theorem Res.state_ok {α : Type} (a : α) (st : RunSt) :
    (Res.ok a st).state = st := rfl

@[simp] theorem Res.state_err {α : Type} (e : Err) (st : RunSt) :
    (Res.err e st : Res α).state = st := rfl

@[simp] theorem Res.value?_ok {α : Type} (a : α) (st : RunSt) :
    (Res.ok a st).value? = some a := rfl

@[simp] theorem Res.value?_err {α : Type} (e : Err) (st : RunSt) :
    (Res.err e st : Res α).value? = none := rfl

/-- The interpreter monad: state in, outcome out. -/
def M (α : Type) := RunSt → Res α

instance : Monad M where
  pure a := fun st => .ok a st
  bind m f := fun st =>
    match m st with
    | .ok a st' => f a st'
    | .err e st' => .err e st'

/-- Equation for `bind` on the interpreter monad. -/
theorem M.bind_def {α β : Type} (m : M α) (f : α → M β) (st : RunSt) :
    (m >>= f) st =
      match m st with
      | .ok a st' => f a st'
      | .err e st' => .err e st' := rfl

/-- Equation for `pure` on the interpreter monad. -/
theorem M.pure_def {α : Type} (a : α) (st : RunSt) :
    (pure a : M α) st = .ok a st := rfl

/-- Whether the stop/cancel request has been issued by virtual time `t`. -/
def stopSet (env : Env) (t : Nat) : Bool :=
  match env.stopAt with
  | none => false
  | some s => decide (s ≤ t)

/-- Embedding of `AsyncPangGuaiRunner._check_stop`: raise when the stop
event is set. -/
def checkStopM (env : Env) : M Unit := fun st =>
  if stopSet env st.time then .err .stopped st else .ok () st

/-- Embedding of `AsyncPangGuaiRunner._sleep(min_s, max_s=0)`:
`seconds = min_s if max_s == 0 else random.randint(min_s, max_s)`, then an
interruptible `asyncio.wait_for(stop_event.wait(), timeout=seconds)` —
raising `InterruptedError` when the event fires (or the task is cancelled)
before the timeout, completing after exactly `seconds` otherwise.
`sleepCore` is the wait itself for a fixed number of seconds. -/
def sleepCore (env : Env) (secs : Nat) (st : RunSt) : Res Unit :=
  match env.stopAt with
  | none =>
    .ok () { st with time := st.time + secs, trace := st.trace ++ [.wait secs] }
  | some s =>
    if s < st.time + secs then .err .stopped st
    else
      .ok () { st with time := st.time + secs, trace := st.trace ++ [.wait secs] }

/-- The two call forms of `_sleep`: `_sleep(d)` waits exactly `d`;
`_sleep(lo, hi)` draws `random.randint(lo, hi)` first. -/
def sleepM (env : Env) (minS maxS : Nat) : M Unit := fun st =>
  if maxS = 0 then sleepCore env minS st
  else sleepCore env (minS + env.rand st.randIdx % (maxS - minS + 1))
    { st with randIdx := st.randIdx + 1 }

/-- Classification of a completed HTTP exchange, from
`PangGuaiClient.request` (`core/client.py` lines 94-109): transport errors
and non-200 statuses yield `None`; a 200 body whose `msg` is `未登录` raises
`RuntimeError("Token 失效")`; any other 200 body is returned. -/
def requestFinish (env : Env) (st st₁ : RunSt) : Res (Option ApiResp) :=
  match env.calls st.callIdx with
  | .transportError => .ok none st₁
  | .http status body =>
    if status ≠ 200 then .ok none st₁
    else if body.msg = "未登录" then .err .tokenExpired st₁
    else .ok (some body) st₁

/-- The fate of an in-flight call: cancelled when stop arrives before the
response (`s < st.time + d`), otherwise classified by `requestFinish`.
The call consumes one oracle entry and up to `min(duration, 15)` seconds
(the client's fixed timeout). -/
def requestCont (env : Env) (st st₁ : RunSt) : Res (Option ApiResp) :=
  match env.stopAt with
  | some s =>
    if s < st.time + min (env.durs st.callIdx) 15 then
      .err .stopped { st₁ with time := s }
    else requestFinish env st st₁
  | none => requestFinish env st st₁

/-- One call through `PangGuaiClient.request`: cancelled at the await if
stop was already requested, cancelled mid-flight if stop arrives before the
response, otherwise classified by `requestFinish`. -/
def requestM (env : Env) (url : String) (tc : Option String)
    (channel : String) : M (Option ApiResp) := fun st =>
  if stopSet env st.time then .err .stopped st
  else requestCont env st
    { st with
        callIdx := st.callIdx + 1
        time := st.time + min (env.durs st.callIdx) 15
        trace := st.trace ++ [.call url tc channel] }

/-- Record a log line (`self.log` schedules a broadcast task; the runner
does not suspend). -/
def logM (msg : String) : M Unit := fun st =>
  .ok () { st with trace := st.trace ++ [.log msg] }

/-- The `log_resp` helper closure of `AsyncPangGuaiRunner.run`: log only
abnormal (non-zero-code) responses. -/
def logRespM (tag : String) (r : Option ApiResp) : M Unit :=
  match r with
  | none => pure ()
  | some res => if res.code ≠ 0 then logM (tag ++ " 异常: " ++ res.msg) else pure ()

/-! ### The whitelist policy constants of `AsyncPangGuaiRunner.__init__` -/

/-- The whitelisted task types: 604 (browse), 605 (mini-app), 606
(ad video). -/
def ALLOWED_TYPES : List Int := [604, 605, 606]

/-- The sensitive-keyword blacklist on titles. -/
def SENSITIVE_KEYWORDS : List String :=
  ["认证", "绑卡", "充值", "开通", "办卡", "上传", "完善"]

/-- The fixed excluded task codes. -/
def excluded_task_codes : List String := ["7"]

/-- Python `max(1, n)` for the daily limit, as the nonnegative repeat
budget (`range(limit)` iterates `limit` times for `limit` at least 1). -/
def pyMaxOne (n : Int) : Nat := if n < 1 then 1 else n.toNat

/-- The pacing base wait of one item: 20 seconds for ad-video items
(type 606), 8 otherwise (`base_wait`, `core/runner.py` line 136). -/
def base_wait (t : Option Int) : Nat := if t = some 606 then 20 else 8

/-- The whitelist check `t_type in self.ALLOWED_TYPES` (an absent type is
not in the whitelist). -/
def typeAllowed : Option Int → Bool
  | some t => ALLOWED_TYPES.contains t
  | none => false

/-- The sensitive-title check `any(k in t_title for k in
self.SENSITIVE_KEYWORDS)`. -/
def titleSensitive (title : String) : Bool :=
  SENSITIVE_KEYWORDS.any (fun k => strContains title k)

/-- A `random.randint(lo, hi)` draw: the next oracle value mapped into
`[lo, hi]`. -/
def randIntM (env : Env) (lo hi : Nat) : M Nat := fun st =>
  .ok (lo + env.rand st.randIdx % (hi - lo + 1)) { st with randIdx := st.randIdx + 1 }

/-! ### The workflow loops (`AsyncPangGuaiRunner.run`) -/

/-- The per-item repeat loop (`core/runner.py` lines 139-169), with the
remaining repeat budget, the current 0-based attempt index `idx` and the
consecutive-no-reward counter `cnr`.  Each iteration draws
`random.randint(base_wait, base_wait + 5)`, but only the first attempt
(`idx == 0`) actually waits; later attempts only log the cooldown.  A
`None` response consumes the attempt and `continue`s, skipping the trailing
2-second pause.  A `code == 0` response resets the counter on reward and
otherwise increments it, breaking at 3; `code == -1` and any other code
break. -/
def preWait (env : Env) (idx waitT : Nat) : M Unit :=
  if idx > 0 then logM ("  > 冷却 " ++ toString waitT ++ "s ...")
  else sleepM env waitT 0

/-- The per-item repeat loop body continues below; `preWait` is the
`if idx > 0: log cooldown / else: sleep` statement of lines 141-142. -/
def attemptLoop (env : Env) (tTitle tCode : String) (baseWait : Nat) :
    Nat → Nat → Nat → M Unit
  | 0, _, _ => pure ()
  | rem + 1, idx, cnr => do
    let waitT ← randIntM env baseWait (baseWait + 5)
    preWait env idx waitT
    let doRes ← requestM env "https://userapi.qiekj.com/task/completed"
      (some tCode) "android_app"
    match doRes with
    | none => attemptLoop env tTitle tCode baseWait rem (idx + 1) cnr
    | some r =>
      if r.code = 0 then
        if r.dataTrue then do
          logM ("  > 第" ++ toString (idx + 1) ++ "次完成 (+积分)")
          sleepM env 2 0
          attemptLoop env tTitle tCode baseWait rem (idx + 1) 0
        else
          if cnr + 1 ≥ 3 then logM "  > 多次无奖励，跳过此任务"
          else do
            sleepM env 2 0
            attemptLoop env tTitle tCode baseWait rem (idx + 1) (cnr + 1)
      else if r.code = -1 then logM "  > 任务失效/达上限，跳过"
      else logRespM ("  > 任务" ++ tTitle) (some r)

/-- The task-list loop (`core/runner.py` lines 105-132): per item a stop
check, then the four filters in source order (already completed, type not
whitelisted, sensitive title, excluded code), then the repeat loop with
`limit = max(1, dailyTaskLimit)` and a longer base wait for ad-video
items.  Returns the final `valid_count`. -/
def itemLoop (env : Env) : List TaskItem → Nat → M Nat
  | [], vc => pure vc
  | item :: rest, vc => do
    checkStopM env
    if item.completedStatus != some 0 then itemLoop env rest vc
    else if !typeAllowed item.type then itemLoop env rest vc
    else if titleSensitive item.title then do
      logM ("跳过敏感任务: " ++ item.title)
      itemLoop env rest vc
    else if excluded_task_codes.contains item.taskCode then itemLoop env rest vc
    else do
      let limit := pyMaxOne (item.dailyTaskLimit.getD 1)
      logM ("执行: " ++ item.title)
      attemptLoop env item.title item.taskCode (base_wait item.type) limit 0 0
      itemLoop env rest (vc + 1)

/-- The success-count progress log of the Alipay loop (every 10th
success). -/
def alipayProgressLog (sc : Nat) : M Unit :=
  if sc % 10 = 0 then logM ("支付宝任务已完成 " ++ toString sc ++ " 次")
  else pure ()

/-- The Alipay hidden-task loop (`core/runner.py` lines 184-204): up to 50
iterations, a direct stop-event check per iteration, a `task/completed`
call on the alipay channel, a consecutive-failure streak that ends the loop
at 3, and a 16-22 second pacing wait after each non-breaking iteration. -/
def alipayLoop (env : Env) : Nat → Nat → Nat → M Unit
  | 0, _, _ => pure ()
  | rem + 1, failStreak, successCount => do
    checkStopM env
    let res ← requestM env "https://userapi.qiekj.com/task/completed"
      (some "9") "alipay"
    let code : Int := match res with | some r => r.code | none => -1
    let dataT : Bool := match res with | some r => r.dataTrue | none => false
    if (code == 0) && dataT then do
      let sc := successCount + 1
      alipayProgressLog sc
      sleepM env 16 22
      alipayLoop env rem 0 sc
    else
      if failStreak + 1 ≥ 3 then logM "支付宝接口失效或达上限，停止"
      else do
        sleepM env 16 22
        alipayLoop env rem (failStreak + 1) successCount

/-- The settlement tail of `AsyncPangGuaiRunner.run` (lines 206-213): a
2-second pacing wait, the final balance fetch, then
`end_balance = int(end_bal_res.get("data", {}).get("integral", 0)) if
end_bal_res else start_balance` and `gain = end_balance - start_balance`. -/
def settlementPhase (env : Env) (username : Option String)
    (startBalance : Int) : M RunResult := do
  sleepM env 2 0
  let endBalRes ← requestM env "https://userapi.qiekj.com/user/balance"
    none "android_app"
  let endBalance := match endBalRes with
    | some r => r.integral
    | none => startBalance
  let gain := endBalance - startBalance
  logM ("任务结束。本次收益: " ++ toString gain ++ ", 余额: " ++ toString endBalance)
  pure { username := username, integral := endBalance, gain := gain }

/-- The sign-in outcome log of the general stage (success /
`already signed in today` / silent otherwise). -/
def signinLog (signRes : Option ApiResp) : M Unit :=
  match signRes with
  | some r =>
    if r.code = 0 then logM ("签到成功 +" ++ toString r.totalIntegral)
    else if r.code = 33001 then logM "今日已签到"
    else pure ()
  | none => pure ()

/-- The home-browse success log (`home_res` with code 0 and `data is
True`). -/
def homeLog (homeRes : Option ApiResp) : M Unit :=
  if (match homeRes with | some r => (r.code == 0) && r.dataTrue | none => false)
  then logM "首页浏览 +1"
  else pure ()

/-- The general stage (`core/runner.py` lines 76-172): sign-in (non-fatal
either way), the shielding query, the home-browse call, the task list fetch
and the item loop. -/
def generalStage (env : Env) : M Unit := do
  logM ">>> 开始基础日常任务"
  let signRes ← requestM env "https://userapi.qiekj.com/signin/doUserSignIn"
    none "android_app"
  signinLog signRes
  sleepM env 2 0
  let _ ← requestM env "https://userapi.qiekj.com/shielding/query"
    none "android_app"
  let homeRes ← requestM env "https://userapi.qiekj.com/task/queryByType"
    none "android_app"
  homeLog homeRes
  sleepM env 2 0
  let tasksRes ← requestM env "https://userapi.qiekj.com/task/list"
    none "android_app"
  let items := match tasksRes with | some r => r.items | none => []
  let vc ← itemLoop env items 0
  if vc = 0 then logM "常规列表无待执行任务" else pure ()

/-- The general stage or its skip log, per `options.general`. -/
def generalPart (env : Env) (opts : TaskOptions) : M Unit :=
  if opts.general then generalStage env else logM "跳过基础任务"

/-- The Alipay stage (50 iterations starting with streaks at zero) or
nothing, per `options.alipay`. -/
def alipayPart (env : Env) (opts : TaskOptions) : M Unit :=
  if opts.alipay then do
    logM ">>> 尝试支付宝隐藏任务 (x50)"
    alipayLoop env 50 0 0
  else pure ()

/-- Embedding of `AsyncPangGuaiRunner.run`: bootstrap (profile and start
balance, soft on failure), a 1-second pacing wait, the general stage or its
skip log, a 2-second wait, the Alipay stage when enabled, and settlement. -/
def runA (env : Env) (opts : TaskOptions) : M RunResult := do
  checkStopM env
  let userInfo ← requestM env "https://userapi.qiekj.com/user/info"
    none "android_app"
  let username := match userInfo with
    | some r => if r.code = 0 then r.userName else none
    | none => none
  let balRes ← requestM env "https://userapi.qiekj.com/user/balance"
    none "android_app"
  let startBalance : Int := match balRes with
    | some r => if r.code = 0 then r.integral else 0
    | none => 0
  logM ("用户: " ++ (match username with | some n => n | none => "None")
    ++ ", 初始积分: " ++ toString startBalance)
  sleepM env 1 0
  generalPart env opts
  sleepM env 2 0
  alipayPart env opts
  settlementPhase env username startBalance

/-- The terminal persisted status written by `_runner_wrapper`
(`manager.py` lines 86-103): a returned result is `done`; an
`InterruptedError` or `asyncio.CancelledError` is `failed` with reason
`用户停止`; any other exception — in particular
`RuntimeError("Token 失效")` — is `failed` with its message. -/
def terminalStatus : Res RunResult → String × Option String
  | .ok _ _ => ("done", none)
  | .err .stopped _ => ("failed", some "用户停止")
  | .err .tokenExpired _ => ("failed", some "Token 失效")

/-- Number of outgoing calls recorded on a trace. -/
def callCount (tr : List Event) : Nat :=
  tr.countP (fun e => match e with | .call _ _ _ => true | _ => false)

/-- Number of completed-task calls for one task code on a trace. -/
def completedCallsFor (tr : List Event) (tc : String) : Nat :=
  tr.countP (fun e => match e with
    | .call _ (some c) _ => c == tc
    | _ => false)

/-- Number of completed pacing waits of at least `n` seconds on a trace. -/
def waitsAtLeast (tr : List Event) (n : Nat) : Nat :=
  tr.countP (fun e => match e with | .wait s => decide (n ≤ s) | _ => false)

/-! ### Composition infrastructure

`StepOk env st st'` records the two facts every construct of the runner
preserves: the trace only grows (effects are append-only), and once a stop
has been requested for virtual time `s`, no state past time `s` is ever
produced — every primitive either completes before `s` or raises at the
suspension point. -/

/-- State evolution invariant: append-only trace, and virtual time capped
by a requested stop time. -/
def StepOk (env : Env) (st st' : RunSt) : Prop :=
  (∃ Δ, st'.trace = st.trace ++ Δ)
  ∧ (∀ s, env.stopAt = some s → st.time ≤ s → st'.time ≤ s)

theorem stepOk_refl (env : Env) (st : RunSt) : StepOk env st st :=
  ⟨⟨[], by simp⟩, fun _ _ h => h⟩

theorem stepOk_trans {env : Env} {st₁ st₂ st₃ : RunSt}
    (h₁ : StepOk env st₁ st₂) (h₂ : StepOk env st₂ st₃) : StepOk env st₁ st₃ := by
  obtain ⟨⟨d₁, hd₁⟩, ht₁⟩ := h₁
  obtain ⟨⟨d₂, hd₂⟩, ht₂⟩ := h₂
  exact ⟨⟨d₁ ++ d₂, by rw [hd₂, hd₁, List.append_assoc]⟩,
    fun s hs h => ht₂ s hs (ht₁ s hs h)⟩

/-- A computation is good when each start state relates to its end state
(on both the value and the raise path). -/
def GoodM (env : Env) {α : Type} (m : M α) : Prop :=
  ∀ st, StepOk env st ((m st).state)

theorem goodM_pure (env : Env) {α : Type} (a : α) :
    GoodM env (pure a : M α) := fun st => stepOk_refl env st

theorem goodM_bind {env : Env} {α β : Type} {m : M α} {f : α → M β}
    (hm : GoodM env m) (hf : ∀ a, GoodM env (f a)) : GoodM env (m >>= f) := by
  intro st
  rw [M.bind_def]
  cases hmst : m st with
  | ok a st' =>
    have h1 := hm st
    rw [hmst] at h1
    exact stepOk_trans h1 (hf a st')
  | err e st' =>
    have h1 := hm st
    rw [hmst] at h1
    exact h1

theorem goodM_ite (env : Env) {α : Type} (c : Prop) [Decidable c]
    {m₁ m₂ : M α} (h₁ : GoodM env m₁) (h₂ : GoodM env m₂) :
    GoodM env (if c then m₁ else m₂) := by
  split
  · exact h₁
  · exact h₂

theorem checkStopM_good (env : Env) : GoodM env (checkStopM env) := by
  intro st
  unfold checkStopM
  split
  · exact stepOk_refl env st
  · exact stepOk_refl env st

theorem logM_good (env : Env) (msg : String) : GoodM env (logM msg) := by
  intro st
  exact ⟨⟨[.log msg], rfl⟩, fun s _ h => h⟩

theorem logRespM_good (env : Env) (tag : String) (r : Option ApiResp) :
    GoodM env (logRespM tag r) := by
  unfold logRespM
  match r with
  | none => exact goodM_pure env ()
  | some res => exact goodM_ite env _ (logM_good env _) (goodM_pure env ())

theorem randIntM_good (env : Env) (lo hi : Nat) : GoodM env (randIntM env lo hi) := by
  intro st
  exact ⟨⟨[], by simp [randIntM]⟩, fun s _ h => by simpa [randIntM] using h⟩

theorem sleepCore_good (env : Env) (secs : Nat) (st : RunSt) :
    StepOk env st ((sleepCore env secs st).state) := by
  unfold sleepCore
  cases hstop : env.stopAt with
  | none =>
    exact ⟨⟨[.wait secs], by simp⟩, fun s hs _ => by rw [hstop] at hs; cases hs⟩
  | some s =>
    try dsimp only
    split
    · exact stepOk_refl env st
    · rename_i hge
      refine ⟨⟨[.wait secs], by simp⟩, fun s' hs' h => ?_⟩
      rw [hstop] at hs'
      cases hs'
      simpa using Nat.le_of_not_lt hge

theorem sleepM_good (env : Env) (minS maxS : Nat) :
    GoodM env (sleepM env minS maxS) := by
  intro st
  unfold sleepM
  split
  · exact sleepCore_good env minS st
  · exact stepOk_trans (⟨⟨[], by simp⟩, fun _ _ h => h⟩ :
      StepOk env st { st with randIdx := st.randIdx + 1 }) (sleepCore_good env _ _)

/-- The classification step returns the prepared post-call state on every
path. -/
theorem requestFinish_state (env : Env) (st st₁ : RunSt) :
    (requestFinish env st st₁).state = st₁ := by
  unfold requestFinish
  split
  · rfl
  · split
    · rfl
    · split <;> rfl

theorem requestM_good (env : Env) (url : String) (tc : Option String)
    (channel : String) : GoodM env (requestM env url tc channel) := by
  intro st
  unfold requestM
  split
  · exact stepOk_refl env st
  · unfold requestCont
    cases hstop : env.stopAt with
    | none =>
      rw [requestFinish_state]
      exact ⟨⟨[.call url tc channel], by simp⟩,
        fun s hs _ => by rw [hstop] at hs; cases hs⟩
    | some s =>
      try dsimp only
      split
      · refine ⟨⟨[.call url tc channel], by simp⟩, fun s' hs' h => ?_⟩
        rw [hstop] at hs'
        cases hs'
        simp
      · rename_i hge
        rw [requestFinish_state]
        refine ⟨⟨[.call url tc channel], by simp⟩, fun s' hs' h => ?_⟩
        rw [hstop] at hs'
        cases hs'
        simpa using Nat.le_of_not_lt hge

theorem preWait_good (env : Env) (idx waitT : Nat) :
    GoodM env (preWait env idx waitT) :=
  goodM_ite env _ (logM_good env _) (sleepM_good env _ _)

theorem attemptLoop_good (env : Env) (tTitle tCode : String) (baseWait : Nat) :
    ∀ rem idx cnr, GoodM env (attemptLoop env tTitle tCode baseWait rem idx cnr) := by
  intro rem
  induction rem with
  | zero => intro idx cnr; exact goodM_pure env ()
  | succ n ih =>
    intro idx cnr
    simp only [attemptLoop]
    apply goodM_bind (randIntM_good env _ _)
    intro waitT
    apply goodM_bind (preWait_good env _ _)
    intro _
    apply goodM_bind (requestM_good env _ _ _)
    intro doRes
    cases doRes with
    | none => exact ih _ _
    | some r =>
      apply goodM_ite env _
      · apply goodM_ite env _
        · apply goodM_bind (logM_good env _)
          intro _
          apply goodM_bind (sleepM_good env _ _)
          intro _
          exact ih _ _
        · apply goodM_ite env _ (logM_good env _)
          apply goodM_bind (sleepM_good env _ _)
          intro _
          exact ih _ _
      · exact goodM_ite env _ (logM_good env _) (logRespM_good env _ _)

theorem itemLoop_good (env : Env) :
    ∀ items vc, GoodM env (itemLoop env items vc) := by
  intro items
  induction items with
  | nil => intro vc; exact goodM_pure env _
  | cons item rest ih =>
    intro vc
    simp only [itemLoop]
    apply goodM_bind (checkStopM_good env)
    intro _
    apply goodM_ite env _ (ih vc)
    apply goodM_ite env _ (ih vc)
    apply goodM_ite env _
    · apply goodM_bind (logM_good env _)
      intro _
      exact ih vc
    · apply goodM_ite env _ (ih vc)
      apply goodM_bind (logM_good env _)
      intro _
      apply goodM_bind (attemptLoop_good env _ _ _ _ _ _)
      intro _
      exact ih _

theorem alipayLoop_good (env : Env) :
    ∀ rem failStreak successCount,
      GoodM env (alipayLoop env rem failStreak successCount) := by
  intro rem
  induction rem with
  | zero => intro f sc; exact goodM_pure env ()
  | succ n ih =>
    intro f sc
    simp only [alipayLoop]
    apply goodM_bind (checkStopM_good env)
    intro _
    apply goodM_bind (requestM_good env _ _ _)
    intro res
    apply goodM_ite env _
    · apply goodM_bind (goodM_ite env _ (logM_good env _) (goodM_pure env ()) :
        GoodM env (alipayProgressLog _))
      intro _
      apply goodM_bind (sleepM_good env _ _)
      intro _
      exact ih _ _
    · apply goodM_ite env _ (logM_good env _)
      apply goodM_bind (sleepM_good env _ _)
      intro _
      exact ih _ _

theorem signinLog_good (env : Env) (signRes : Option ApiResp) :
    GoodM env (signinLog signRes) := by
  unfold signinLog
  cases signRes with
  | none => exact goodM_pure env ()
  | some r =>
    apply goodM_ite env _ (logM_good env _)
    exact goodM_ite env _ (logM_good env _) (goodM_pure env ())

theorem homeLog_good (env : Env) (homeRes : Option ApiResp) :
    GoodM env (homeLog homeRes) :=
  goodM_ite env _ (logM_good env _) (goodM_pure env ())

theorem settlementPhase_good (env : Env) (username : Option String)
    (startBalance : Int) : GoodM env (settlementPhase env username startBalance) := by
  unfold settlementPhase
  apply goodM_bind (sleepM_good env _ _)
  intro _
  apply goodM_bind (requestM_good env _ _ _)
  intro endBalRes
  apply goodM_bind (logM_good env _)
  intro _
  exact goodM_pure env _

theorem generalStage_good (env : Env) : GoodM env (generalStage env) := by
  unfold generalStage
  apply goodM_bind (logM_good env _)
  intro _
  apply goodM_bind (requestM_good env _ _ _)
  intro signRes
  apply goodM_bind (signinLog_good env signRes)
  intro _
  apply goodM_bind (sleepM_good env _ _)
  intro _
  apply goodM_bind (requestM_good env _ _ _)
  intro _
  apply goodM_bind (requestM_good env _ _ _)
  intro homeRes
  apply goodM_bind (homeLog_good env homeRes)
  intro _
  apply goodM_bind (sleepM_good env _ _)
  intro _
  apply goodM_bind (requestM_good env _ _ _)
  intro tasksRes
  apply goodM_bind (itemLoop_good env _ _)
  intro vc
  exact goodM_ite env _ (logM_good env _) (goodM_pure env ())

theorem generalPart_good (env : Env) (opts : TaskOptions) :
    GoodM env (generalPart env opts) :=
  goodM_ite env _ (generalStage_good env) (logM_good env _)

theorem alipayPart_good (env : Env) (opts : TaskOptions) :
    GoodM env (alipayPart env opts) := by
  unfold alipayPart
  apply goodM_ite env _ ?_ (goodM_pure env ())
  apply goodM_bind (logM_good env _)
  intro _
  exact alipayLoop_good env _ _ _

theorem runA_good (env : Env) (opts : TaskOptions) : GoodM env (runA env opts) := by
  unfold runA
  apply goodM_bind (checkStopM_good env)
  intro _
  apply goodM_bind (requestM_good env _ _ _)
  intro userInfo
  apply goodM_bind (requestM_good env _ _ _)
  intro balRes
  apply goodM_bind (logM_good env _)
  intro _
  apply goodM_bind (sleepM_good env _ _)
  intro _
  apply goodM_bind (generalPart_good env opts)
  intro _
  apply goodM_bind (sleepM_good env _ _)
  intro _
  apply goodM_bind (alipayPart_good env opts)
  intro _
  exact settlementPhase_good env _ _

/-! ### Reduction lemmas for the primitives -/

/-- The client's three-way classification of one raw exchange: a `None`
result (transport error or non-200), the hard `Token 失效` raise
(HTTP 200 with `msg == "未登录"`), or a returned body. -/
inductive CResp
  | null
  | expired
  | resp (r : ApiResp)
  deriving DecidableEq, Repr

/-- Classify a raw transport outcome as `PangGuaiClient.request` does. -/
def classify : RawResult → CResp
  | .transportError => .null
  | .http status body =>
    if status ≠ 200 then .null
    else if body.msg = "未登录" then .expired
    else .resp body

/-- `requestFinish` is exactly the classification. -/
theorem requestFinish_classify (env : Env) (st st₁ : RunSt) :
    requestFinish env st st₁ =
      match classify (env.calls st.callIdx) with
      | .null => .ok none st₁
      | .expired => .err .tokenExpired st₁
      | .resp b => .ok (some b) st₁ := by
  unfold requestFinish classify
  cases env.calls st.callIdx with
  | transportError => rfl
  | http status body =>
    by_cases hs : status ≠ 200
    · simp [hs]
    · by_cases hm : body.msg = "未登录" <;> simp [hs, hm]

/-- The state after one completed (uncancelled) network call. -/
def reqSt (env : Env) (url : String) (tc : Option String) (channel : String)
    (st : RunSt) : RunSt :=
  { st with
      callIdx := st.callIdx + 1
      time := st.time + min (env.durs st.callIdx) 15
      trace := st.trace ++ [.call url tc channel] }

/-- With no stop requested, a request is the classification of its oracle
entry at the post-call state. -/
theorem requestM_none {env : Env} (hstop : env.stopAt = none)
    (url : String) (tc : Option String) (channel : String) (st : RunSt) :
    requestM env url tc channel st =
      match classify (env.calls st.callIdx) with
      | .null => .ok none (reqSt env url tc channel st)
      | .expired => .err .tokenExpired (reqSt env url tc channel st)
      | .resp b => .ok (some b) (reqSt env url tc channel st) := by
  unfold requestM requestCont stopSet
  rw [hstop]
  simp only [if_false, Bool.false_eq_true]
  rw [requestFinish_classify]
  rfl

/-- With no stop requested, `_check_stop` passes. -/
theorem checkStopM_none {env : Env} (hstop : env.stopAt = none) (st : RunSt) :
    checkStopM env st = .ok () st := by
  unfold checkStopM stopSet
  rw [hstop]
  rfl

/-- The state after a completed wait of `secs` seconds. -/
def waitSt (secs : Nat) (st : RunSt) : RunSt :=
  { st with time := st.time + secs, trace := st.trace ++ [.wait secs] }

/-- With no stop requested, a fixed-duration `_sleep(d)` completes after
exactly `d` seconds. -/
theorem sleepM_none_fixed {env : Env} (hstop : env.stopAt = none)
    (minS : Nat) (st : RunSt) :
    sleepM env minS 0 st = .ok () (waitSt minS st) := by
  unfold sleepM sleepCore waitSt
  rw [hstop]
  rfl

/-- With no stop requested, a randomised `_sleep(lo, hi)` draws one random
value and completes after that many seconds. -/
theorem sleepM_none_rand {env : Env} (hstop : env.stopAt = none)
    (minS maxS : Nat) (hm : maxS ≠ 0) (st : RunSt) :
    sleepM env minS maxS st =
      .ok () (waitSt (minS + env.rand st.randIdx % (maxS - minS + 1))
        { st with randIdx := st.randIdx + 1 }) := by
  unfold sleepM sleepCore waitSt
  rw [hstop, if_neg hm]

/-- Counting helper: completed-task calls in an appended trace. -/
theorem completedCallsFor_append (a b : List Event) (tc : String) :
    completedCallsFor (a ++ b) tc = completedCallsFor a tc + completedCallsFor b tc :=
  List.countP_append _ _ _

/-- A good computation never loses completed-task calls from the trace. -/
theorem cc_of_good {env : Env} {α : Type} {m : M α} (hm : GoodM env m)
    (st : RunSt) (tc : String) :
    completedCallsFor st.trace tc ≤ completedCallsFor ((m st).state).trace tc := by
  obtain ⟨Δ, hΔ⟩ := (hm st).1
  rw [hΔ, completedCallsFor_append]
  omega

/-! ### Functional characterisation of the per-item repeat loop -/

/-- The number of "complete" calls the repeat loop makes, as a pure
function of the classified responses from call index `k` on, the remaining
budget, and the consecutive-no-reward counter: a null response consumes the
attempt and continues with the counter untouched; a success with reward
continues with the counter reset; a success without reward continues with
the counter incremented unless it reaches 3, which halts; any failure with
a non-zero code halts immediately; a credential-expiry response makes the
call and then aborts. -/
def specAttemptCount (resp : Nat → CResp) : Nat → Nat → Nat → Nat
  | _, 0, _ => 0
  | k, rem + 1, cnr =>
    match resp k with
    | .null => 1 + specAttemptCount resp (k + 1) rem cnr
    | .expired => 1
    | .resp r =>
      if r.code = 0 then
        if r.dataTrue then 1 + specAttemptCount resp (k + 1) rem 0
        else if cnr + 1 ≥ 3 then 1
        else 1 + specAttemptCount resp (k + 1) rem (cnr + 1)
      else 1

@[simp] theorem completedCallsFor_nil (tc : String) :
    completedCallsFor [] tc = 0 := rfl

@[simp] theorem completedCallsFor_cons_log (m tc : String) (tr : List Event) :
    completedCallsFor (.log m :: tr) tc = completedCallsFor tr tc := by
  simp [completedCallsFor, List.countP_cons]

@[simp] theorem completedCallsFor_cons_wait (w : Nat) (tc : String)
    (tr : List Event) :
    completedCallsFor (.wait w :: tr) tc = completedCallsFor tr tc := by
  simp [completedCallsFor, List.countP_cons]

@[simp] theorem completedCallsFor_cons_call_self (u ch tc : String)
    (tr : List Event) :
    completedCallsFor (.call u (some tc) ch :: tr) tc
      = completedCallsFor tr tc + 1 := by
  simp [completedCallsFor, List.countP_cons]

/-- The repeat loop refines `specAttemptCount`: with no stop requested and
no credential-expiry response, it returns normally (no error for the run)
and makes exactly the specified number of "complete" calls for its task
code, both in the call counter and on the trace. -/
theorem attemptLoop_count (env : Env) (tTitle tCode : String) (baseWait : Nat)
    (hstop : env.stopAt = none)
    (hne : ∀ k, classify (env.calls k) ≠ .expired) :
    ∀ rem idx cnr st, ∃ st',
      attemptLoop env tTitle tCode baseWait rem idx cnr st = .ok () st'
      ∧ st'.callIdx = st.callIdx
          + specAttemptCount (fun k => classify (env.calls k)) st.callIdx rem cnr
      ∧ completedCallsFor st'.trace tCode = completedCallsFor st.trace tCode
          + specAttemptCount (fun k => classify (env.calls k)) st.callIdx rem cnr := by
  intro rem
  induction rem with
  | zero =>
    intro idx cnr st
    exact ⟨st, rfl, by simp [specAttemptCount], by simp [specAttemptCount]⟩
  | succ n ih =>
    intro idx cnr st
    simp only [attemptLoop, M.bind_def, randIntM]
    by_cases hidx : idx > 0
    all_goals
      simp only [preWait, hidx, if_true, if_false, logM,
        sleepM_none_fixed hstop, requestM_none hstop, waitSt, reqSt]
    all_goals
      rcases hcl : classify (env.calls st.callIdx) with _ | _ | b
      · obtain ⟨st', h1, h2, h3⟩ := ih (idx + 1) cnr _
        refine ⟨st', ?_, ?_, ?_⟩
        · simpa using h1
        · rw [h2]
          simp only [specAttemptCount, hcl]
          try dsimp only
          omega
        · rw [h3]
          simp only [specAttemptCount, hcl]
          try dsimp only
          simp [completedCallsFor_append]
          omega
      · exact absurd hcl (hne st.callIdx)
      · try dsimp only
        by_cases hc0 : b.code = 0
        · by_cases hdt : b.dataTrue = true
          · obtain ⟨st', h1, h2, h3⟩ := ih (idx + 1) 0 _
            refine ⟨st', ?_, ?_, ?_⟩
            · simpa [hc0, hdt, M.bind_def, logM, sleepM_none_fixed hstop,
                waitSt] using h1
            · rw [h2]
              simp only [specAttemptCount, hcl, hc0, hdt, if_true]
              try dsimp only
              omega
            · rw [h3]
              simp only [specAttemptCount, hcl, hc0, hdt, if_true]
              try dsimp only
              simp [completedCallsFor_append]
              omega
          · by_cases hc3 : cnr + 1 ≥ 3
            · rw [if_pos hc0, if_neg hdt, if_pos hc3]
              refine ⟨_, rfl, ?_, ?_⟩
              · simp [logM, specAttemptCount, hcl, hc0, hdt, hc3]
              · simp [logM, specAttemptCount, hcl, hc0, hdt, hc3,
                  completedCallsFor_append]
            · obtain ⟨st', h1, h2, h3⟩ := ih (idx + 1) (cnr + 1) _
              refine ⟨st', ?_, ?_, ?_⟩
              · simpa [hc0, hdt, hc3, M.bind_def, sleepM_none_fixed hstop,
                  waitSt] using h1
              · rw [h2]
                simp [specAttemptCount, hcl, hc0, hdt, hc3]
                omega
              · rw [h3]
                simp [specAttemptCount, hcl, hc0, hdt, hc3,
                  completedCallsFor_append]
                omega
        · by_cases hcm : b.code = -1
          · rw [if_neg hc0, if_pos hcm]
            refine ⟨_, rfl, ?_, ?_⟩
            · simp [logM, specAttemptCount, hcl, hc0, hcm]
            · simp [logM, specAttemptCount, hcl, hc0, hcm,
                completedCallsFor_append]
          · rw [if_neg hc0, if_neg hcm]
            simp only [logRespM]
            rw [if_pos hc0]
            refine ⟨_, rfl, ?_, ?_⟩
            · simp [logM, specAttemptCount, hcl, hc0, hcm]
            · simp [logM, specAttemptCount, hcl, hc0, hcm,
                completedCallsFor_append]

/-! ### Concrete oracle environments used by the closed theorems -/

/-- An HTTP 200 outcome with the given parsed body. -/
def okHttp (r : ApiResp) : RawResult := .http 200 r

/-- Oracle for the credential-expiry scenario: profile and balance succeed,
then the third call (the sign-in, mid general stage) answers 200 with
`msg = "未登录"`. -/
def envC2 : Env :=
  { calls := fun k =>
      if k = 0 then okHttp { code := 0, userName := some "u" }
      else if k = 1 then okHttp { code := 0, integral := 50 }
      else okHttp { code := 0, msg := "未登录" }
    rand := fun _ => 0
    durs := fun _ => 1
    stopAt := none }

/-- Options running only the general stage. -/
def optsGeneral : TaskOptions := { general := true, video := false, alipay := false }

/-- Options skipping every optional stage. -/
def optsSkip : TaskOptions := { general := false, video := false, alipay := false }

/-- Oracle whose every call fails with a non-terminal business code 5. -/
def envC6 : Env :=
  { calls := fun _ => okHttp { code := 5, msg := "boom" }
    rand := fun _ => 0
    durs := fun _ => 1
    stopAt := none }

/-- An ad-video task item with a daily limit of 2 that passes every
filter. -/
def itemC8 : TaskItem :=
  { title := "T"
    type := some 606
    taskCode := "c1"
    completedStatus := some 0
    dailyTaskLimit := some 2 }

/-- Oracle whose every call succeeds with a reward. -/
def envC8 : Env :=
  { calls := fun _ => okHttp { code := 0, dataTrue := true }
    rand := fun _ => 0
    durs := fun _ => 1
    stopAt := none }

/-- Oracle with the stop signal already set at virtual time 0. -/
def envStop : Env :=
  { calls := fun _ => okHttp {}
    rand := fun _ => 0
    durs := fun _ => 1
    stopAt := some 0 }

/-- Oracle whose every call fails at the transport layer (request returns
`None`). -/
def envNull : Env :=
  { calls := fun _ => .transportError
    rand := fun _ => 0
    durs := fun _ => 1
    stopAt := none }

/-- Oracle whose every call succeeds (code 0) without a reward. -/
def envNR : Env :=
  { calls := fun _ => okHttp { code := 0, dataTrue := false }
    rand := fun _ => 0
    durs := fun _ => 1
    stopAt := none }

/-- Oracle for the settlement scenario: profile succeeds, the starting
balance is 100, and the final balance fetch answers 200 with a non-zero
code (and hence no usable `integral`, defaulting to 0). -/
def envC9 : Env :=
  { calls := fun k =>
      if k = 0 then okHttp { code := 0, userName := some "u" }
      else if k = 1 then okHttp { code := 0, integral := 100 }
      else okHttp { code := 1, msg := "err" }
    rand := fun _ => 0
    durs := fun _ => 1
    stopAt := none }

set_option maxHeartbeats 1600000 in
/-- C6 counterexample: an item with daily limit 3 whose three available
attempts would all fail with the non-terminal business code 5.  The claim
says such calls increment the consecutive-no-progress counter and that only
reaching 3 halts the item, which would give 3 "complete" calls; the async
runner instead halts the item on the first non-zero code, making exactly
one call. -/
theorem C6_counterexample :
    ((attemptLoop envC6 "T" "c2" 8 3 0 0 {}).state).callIdx = 1
    ∧ ¬ ((attemptLoop envC6 "T" "c2" 8 3 0 0 {}).state).callIdx = 3 := by
  exact ⟨by decide, by decide⟩

/-- C2: on HTTP 200 with `msg = "未登录"` the client raises the hard
`Token 失效` failure consuming exactly one oracle call (no retry of that
exchange), a transport failure instead yields a soft `None` result (the
caller continues), any other 200 body is returned; and the wrapper persists
the raise as `failed` with the reason `Token 失效`, distinct both from the
user-stop reason `用户停止` and from `done`.  The closed conjuncts run the
scenario where the sign-in call — mid general stage — answers `未登录`:
the run aborts with exactly 3 calls made and persists
`("failed", "Token 失效")`. -/
theorem C2_credential_expiry :
    (∀ env url tc ch (st : RunSt) b, env.stopAt = none →
       env.calls st.callIdx = .http 200 b → b.msg = "未登录" →
       ∃ st', requestM env url tc ch st = .err .tokenExpired st'
         ∧ st'.callIdx = st.callIdx + 1
         ∧ st'.trace = st.trace ++ [.call url tc ch])
    ∧ (∀ env url tc ch (st : RunSt), env.stopAt = none →
       env.calls st.callIdx = .transportError →
       ∃ st', requestM env url tc ch st = .ok none st')
    ∧ (∀ env url tc ch (st : RunSt) b, env.stopAt = none →
       env.calls st.callIdx = .http 200 b → b.msg ≠ "未登录" →
       ∃ st', requestM env url tc ch st = .ok (some b) st')
    ∧ (∀ st : RunSt,
        terminalStatus (.err .tokenExpired st) = ("failed", some "Token 失效"))
    ∧ (∀ st : RunSt,
        terminalStatus (.err .stopped st) = ("failed", some "用户停止"))
    ∧ ("failed", some "Token 失效")
        ≠ (("failed", some "用户停止") : String × Option String)
    ∧ (∀ (r : RunResult) (st : RunSt), (terminalStatus (.ok r st)).1 = "done")
    ∧ terminalStatus (runA envC2 optsGeneral {}) = ("failed", some "Token 失效")
    ∧ ((runA envC2 optsGeneral {}).state).callIdx = 3 := by
  refine ⟨?_, ?_, ?_, fun _ => rfl, fun _ => rfl, by decide, fun _ _ => rfl,
    by decide, by decide⟩
  · intro env url tc ch st b hstop hcall hmsg
    rw [requestM_none hstop]
    have : classify (env.calls st.callIdx) = .expired := by
      rw [hcall]
      simp [classify, hmsg]
    rw [this]
    exact ⟨_, rfl, by simp [reqSt], by simp [reqSt]⟩
  · intro env url tc ch st hstop hcall
    rw [requestM_none hstop]
    have : classify (env.calls st.callIdx) = .null := by
      rw [hcall]
      rfl
    rw [this]
    exact ⟨_, rfl⟩
  · intro env url tc ch st b hstop hcall hmsg
    rw [requestM_none hstop]
    have : classify (env.calls st.callIdx) = .resp b := by
      rw [hcall]
      simp [classify, hmsg]
    rw [this]
    exact ⟨_, rfl⟩

/-- C2 witness: the expiry branch of the theorem at a concrete oracle. -/
theorem C2_credential_expiry_witness :
    ∃ st', requestM envC2 "https://userapi.qiekj.com/signin/doUserSignIn" none
        "android_app" { callIdx := 2, randIdx := 0, time := 0, trace := [] }
      = .err .tokenExpired st' ∧ st'.callIdx = 3
      ∧ st'.trace = [.call "https://userapi.qiekj.com/signin/doUserSignIn"
          none "android_app"] := by
  obtain ⟨st', h1, h2, h3⟩ := C2_credential_expiry.1 envC2
    "https://userapi.qiekj.com/signin/doUserSignIn" none "android_app"
    { callIdx := 2, randIdx := 0, time := 0, trace := [] }
    { code := 0, msg := "未登录" } rfl (by decide) rfl
  exact ⟨st', h1, h2, by simpa using h3⟩

/-- C6 (amended): with no stop request and no credential-expiry response,
the per-item repeat loop returns without error and makes exactly
`specAttemptCount` "complete" calls: a success without reward increments
the consecutive-no-progress counter (halting the item at 3), a success
with reward resets it, any non-zero code halts the item at once, and a
null response consumes the attempt without touching the counter.  In
particular a run of consecutive no-reward responses halts the item after
`min rem 3` calls without raising. -/
theorem C6_no_progress_counter (env : Env) (tTitle tCode : String)
    (baseWait : Nat) (hstop : env.stopAt = none)
    (hne : ∀ k, classify (env.calls k) ≠ .expired)
    (rem idx cnr : Nat) (st : RunSt) :
    (∃ st', attemptLoop env tTitle tCode baseWait rem idx cnr st = .ok () st'
      ∧ st'.callIdx = st.callIdx
          + specAttemptCount (fun k => classify (env.calls k)) st.callIdx rem cnr
      ∧ completedCallsFor st'.trace tCode = completedCallsFor st.trace tCode
          + specAttemptCount (fun k => classify (env.calls k)) st.callIdx rem cnr)
    ∧ ((∀ k, classify (env.calls k)
          = .resp { code := 0, msg := "", dataTrue := false, integral := 0,
                    items := [], userName := none, totalIntegral := 0 }) →
        specAttemptCount (fun k => classify (env.calls k)) st.callIdx rem 0
          = min rem 3) := by
  refine ⟨attemptLoop_count env tTitle tCode baseWait hstop hne rem idx cnr st, ?_⟩
  intro hnr
  have key : ∀ r k c, c ≤ 2 →
      specAttemptCount (fun j => classify (env.calls j)) k r c = min r (3 - c) := by
    intro r
    induction r with
    | zero => intro k c _; simp [specAttemptCount]
    | succ m ih =>
      intro k c hc
      rw [specAttemptCount, hnr k]
      by_cases h3 : c + 1 ≥ 3
      · simp only [if_true, if_false, h3]
        simp
        omega
      · simp only [h3, if_false]
        simp only [ite_false, ite_true]
        rw [ih (k + 1) (c + 1) (by omega)]
        simp
        omega
  simpa using key rem st.callIdx 0 (by omega)

/-- C6 witness: the amended theorem at a concrete all-no-reward oracle. -/
theorem C6_no_progress_counter_witness :
    (∃ st', attemptLoop envNR "T" "c" 8 5 0 0 {} = .ok () st'
      ∧ st'.callIdx = 0 + specAttemptCount (fun k => classify (envNR.calls k)) 0 5 0
      ∧ completedCallsFor st'.trace "c" = completedCallsFor ([] : List Event) "c"
          + specAttemptCount (fun k => classify (envNR.calls k)) 0 5 0)
    ∧ specAttemptCount (fun k => classify (envNR.calls k)) 0 5 0 = min 5 3 := by
  have h := C6_no_progress_counter envNR "T" "c" 8 rfl
    (fun k => by simp [envNR, okHttp, classify]; decide) 5 0 0 {}
  exact ⟨h.1, h.2 (fun k => by simp [envNR, okHttp, classify]; decide)⟩

/-- C9 (amended): in the settlement phase, a null final-balance response
(transport failure or non-2xx) falls back to the starting balance — the
run completes with `integral = startBalance` and `gain = 0` — but any
non-null 200 response, whatever its business code, does not fall back:
the runner takes its `integral` view (0 when absent) and reports
`gain = integral - startBalance`. -/
theorem C9_settlement_fallback (env : Env) (username : Option String)
    (startBalance : Int) (st : RunSt) (hstop : env.stopAt = none) :
    (classify (env.calls st.callIdx) = .null →
      ∃ st', settlementPhase env username startBalance st
          = .ok { username := username, integral := startBalance, gain := 0 } st')
    ∧ (∀ b, classify (env.calls st.callIdx) = .resp b →
      ∃ st', settlementPhase env username startBalance st
          = .ok { username := username, integral := b.integral,
                  gain := b.integral - startBalance } st') := by
  constructor
  · intro hcl
    simp only [settlementPhase, M.bind_def, sleepM_none_fixed hstop,
      requestM_none hstop, waitSt, logM, M.pure_def]
    simp only [hcl]
    rw [sub_self]
    exact ⟨_, rfl⟩
  · intro b hcl
    simp only [settlementPhase, M.bind_def, sleepM_none_fixed hstop,
      requestM_none hstop, waitSt, logM, M.pure_def]
    simp only [hcl]
    exact ⟨_, rfl⟩

/-- C9 witness: the non-fallback branch of the amended theorem at the
concrete settlement oracle (start balance 100, final fetch answering 200
with code 1 and no integral): the run "succeeds" with balance 0 and gain
-100. -/
theorem C9_settlement_fallback_witness :
    ∃ st', settlementPhase envC9 (some "u") 100
        { callIdx := 2, randIdx := 0, time := 0, trace := [] }
      = .ok { username := some "u", integral := 0, gain := -100 } st' := by
  obtain ⟨st', h⟩ := (C9_settlement_fallback envC9 (some "u") 100
      { callIdx := 2, randIdx := 0, time := 0, trace := [] } rfl).2
    { code := 1, msg := "err" } (by decide)
  simp only [zero_sub] at h
  exact ⟨st', h⟩

/-- C10: a null `task/completed` response (transport failure or non-2xx)
consumes exactly one attempt: the loop recurses with the remaining budget
decremented, the attempt index incremented and the no-reward counter
untouched, having consumed exactly one oracle call; the `continue` skips
the trailing 2-second pause, so the only events added are the pre-attempt
pacing (a real wait on the first attempt, only a cooldown log on later
ones) and the call itself. -/
theorem C10_null_attempt (env : Env) (tTitle tCode : String)
    (baseWait rem idx cnr : Nat) (st : RunSt) (hstop : env.stopAt = none)
    (hcall : classify (env.calls st.callIdx) = .null) :
    ∃ st', attemptLoop env tTitle tCode baseWait (rem + 1) idx cnr st
        = attemptLoop env tTitle tCode baseWait rem (idx + 1) cnr st'
      ∧ st'.callIdx = st.callIdx + 1
      ∧ (0 < idx → st'.trace = st.trace
          ++ [.log ("  > 冷却 " ++ toString (baseWait + env.rand st.randIdx % 6)
                ++ "s ..."),
              .call "https://userapi.qiekj.com/task/completed" (some tCode)
                "android_app"])
      ∧ (idx = 0 → st'.trace = st.trace
          ++ [.wait (baseWait + env.rand st.randIdx % 6),
              .call "https://userapi.qiekj.com/task/completed" (some tCode)
                "android_app"]) := by
  by_cases hidx : 0 < idx
  · simp only [attemptLoop, M.bind_def, randIntM, preWait, hidx, if_true, logM,
      requestM_none hstop]
    simp only [hcall]
    refine ⟨_, rfl, ?_, ?_, ?_⟩
    · simp [reqSt]
    · intro _
      simp [reqSt, List.append_assoc]
    · intro h0
      omega
  · have h0 : idx = 0 := by omega
    subst h0
    simp only [attemptLoop, M.bind_def, randIntM, preWait, lt_irrefl, if_false,
      sleepM_none_fixed hstop, waitSt, requestM_none hstop]
    simp only [hcall]
    refine ⟨_, rfl, ?_, ?_, ?_⟩
    · simp [reqSt]
    · intro h
      exact h.elim
    · intro _
      simp [reqSt, List.append_assoc]

/-- C10 witness: the theorem at a concrete transport-failing oracle. -/
theorem C10_null_attempt_witness :
    ∃ st', attemptLoop envNull "T" "c" 8 3 0 1 {}
        = attemptLoop envNull "T" "c" 8 2 1 1 st'
      ∧ st'.callIdx = 1 := by
  obtain ⟨st', h1, h2, h3, h4⟩ :=
    C10_null_attempt envNull "T" "c" 8 2 0 1 {} rfl (by decide)
  exact ⟨st', h1, by simpa using h2⟩

set_option maxHeartbeats 1600000 in
/-- C8 (code bug, evaluated at the failing input): an ad-video item with
daily limit 2 passing every filter is run by `itemLoop` as
`attemptLoop` with base wait `base_wait (some 606) = 20` and budget
`pyMaxOne 2 = 2` attempts.  The claim (and the spec) require a randomised
pacing delay from the longer ad-video range before each attempt — two
waits of at least 20 seconds here — but the code only waits before the
first attempt: `if idx > 0` logs the cooldown instead of sleeping, so
exactly one such wait occurs while a `冷却 20s ...` line is logged with no
wait performed. -/
theorem C8_pacing_bug :
    base_wait (some 606) = 20 ∧ base_wait (some 604) = 8
    ∧ pyMaxOne (-1) = 1 ∧ pyMaxOne 2 = 2
    ∧ completedCallsFor
        ((attemptLoop envC8 "T" "c1" (base_wait (some 606)) 2 0 0 {}).state).trace
        "c1" = 2
    ∧ waitsAtLeast
        ((attemptLoop envC8 "T" "c1" (base_wait (some 606)) 2 0 0 {}).state).trace
        20 = 1
    ∧ ((attemptLoop envC8 "T" "c1" (base_wait (some 606)) 2 0 0 {}).state).trace.contains
        (.log "  > 冷却 20s ...") = true := by
  refine ⟨by decide, by decide, by decide, by decide, by decide, by decide, by decide⟩

set_option maxHeartbeats 1600000 in
/-- C9 counterexample: the final balance fetch returns 200 with code 1, so
the runner takes `data.get("integral", 0) = 0` rather than falling back to
the starting balance 100: the run completes with `integral = 0` and
`gain = -100`, not `integral = 100` and `gain = 0` as the claim states. -/
theorem C9_counterexample :
    (runA envC9 optsSkip {}).value?
        = some { username := some "u", integral := 0, gain := -100 }
    ∧ ¬ (runA envC9 optsSkip {}).value?
        = some { username := some "u", integral := 100, gain := 0 } := by
  exact ⟨by decide, by decide⟩

/-! ### C5: interruptible waits and stop latency -/

set_option maxHeartbeats 1600000 in
/-- C5: every pacing delay of the async runner is `_sleep`, an
interruptible wait on the stop signal with a timeout equal to the intended
delay: with no stop requested (or one requested beyond the delay's end) it
completes after exactly the intended seconds, while a stop landing inside
the delay interrupts it at once instead of sleeping the delay out.  Once
the stop signal has fired, the explicit stop check and the request wrapper
raise at the suspension point, an in-flight call is cancelled no later
than the stop moment, and consequently the whole workflow never runs past
the stop time in virtual time: from any state not past the stop time it
reaches a terminal state with time still not past it.  The stopped run
persists as `failed` with reason `用户停止`; the closed conjunct runs the
workflow with the stop already set: it terminates immediately with that
status and an empty trace. -/
theorem C5_interruptible_stop :
    (∀ env secs (st : RunSt), env.stopAt = none →
       sleepCore env secs st = .ok () (waitSt secs st))
    ∧ (∀ env secs (st : RunSt) s, env.stopAt = some s → st.time + secs ≤ s →
       sleepCore env secs st = .ok () (waitSt secs st))
    ∧ (∀ env secs (st : RunSt) s, env.stopAt = some s → s < st.time + secs →
       sleepCore env secs st = .err .stopped st)
    ∧ (∀ env (st : RunSt), stopSet env st.time = true →
       checkStopM env st = .err .stopped st)
    ∧ (∀ env url tc ch (st : RunSt), stopSet env st.time = true →
       requestM env url tc ch st = .err .stopped st)
    ∧ (∀ env opts (st : RunSt) s, env.stopAt = some s → st.time ≤ s →
       ((runA env opts st).state).time ≤ s)
    ∧ (∀ st : RunSt,
        terminalStatus (.err .stopped st) = ("failed", some "用户停止"))
    ∧ terminalStatus (runA envStop optsGeneral {}) = ("failed", some "用户停止")
    ∧ ((runA envStop optsGeneral {}).state).trace = [] := by
  refine ⟨?_, ?_, ?_, ?_, ?_, ?_, fun _ => rfl, by decide, by decide⟩
  · intro env secs st h
    unfold sleepCore
    rw [h]
    rfl
  · intro env secs st s h hle
    unfold sleepCore
    rw [h]
    simp only [if_neg (by omega : ¬ s < st.time + secs)]
    rfl
  · intro env secs st s h hlt
    unfold sleepCore
    rw [h]
    simp only [if_pos hlt]
  · intro env st h
    simp [checkStopM, h]
  · intro env url tc ch st h
    simp [requestM, h]
  · intro env opts st s hs hle
    exact (runA_good env opts st).2 s hs hle

/-- C5 witness: with the stop set at time 0, a pending 5-second pacing wait
raises immediately, and the whole workflow never passes virtual time 0. -/
theorem C5_interruptible_stop_witness :
    sleepCore envStop 5 {} = .err .stopped {}
    ∧ ((runA envStop optsGeneral {}).state).time ≤ 0 := by
  refine ⟨C5_interruptible_stop.2.2.1 envStop 5 {} 0 rfl (by decide), ?_⟩
  exact C5_interruptible_stop.2.2.2.2.2.1 envStop optsGeneral {} 0 rfl (by decide)

/-! ### C4: the four task filters -/

/-- Helper: a repeat loop entered with a positive budget makes at least one
completed-task call for its task code before returning or raising. -/
theorem attemptLoop_first_call (env : Env) (tTitle tCode : String)
    (baseWait : Nat) (hstop : env.stopAt = none) (n idx cnr : Nat) (st : RunSt) :
    completedCallsFor st.trace tCode + 1
      ≤ completedCallsFor
          ((attemptLoop env tTitle tCode baseWait (n + 1) idx cnr st).state).trace
          tCode := by
  have hAL : ∀ rem idx' cnr' (st' : RunSt),
      completedCallsFor st'.trace tCode
        ≤ completedCallsFor
            ((attemptLoop env tTitle tCode baseWait rem idx' cnr' st').state).trace
            tCode :=
    fun rem idx' cnr' st' =>
      cc_of_good (attemptLoop_good env tTitle tCode baseWait rem idx' cnr') st' tCode
  simp only [attemptLoop, M.bind_def, randIntM, preWait]
  by_cases hidx : idx > 0
  all_goals
    simp only [hidx, if_true, if_false, logM, sleepM_none_fixed hstop, waitSt,
      requestM_none hstop, reqSt]
  all_goals rcases hcl : classify (env.calls st.callIdx) with _ | _ | b
  all_goals simp only [hcl]
  · refine le_trans ?_ (hAL n (idx + 1) cnr _)
    simp [completedCallsFor_append]
  · simp [completedCallsFor_append]
  · refine le_trans (by simp [completedCallsFor_append]) (@cc_of_good env Unit _ ?_ _ tCode)
    apply goodM_ite env _
    · apply goodM_ite env _
      · apply goodM_bind (logM_good env _)
        intro _
        apply goodM_bind (sleepM_good env _ _)
        intro _
        exact attemptLoop_good env _ _ _ _ _ _
      · apply goodM_ite env _ (logM_good env _)
        apply goodM_bind (sleepM_good env _ _)
        intro _
        exact attemptLoop_good env _ _ _ _ _ _
    · apply goodM_ite env _ (logM_good env _) (logRespM_good env _ _)
  · refine le_trans ?_ (hAL n (idx + 1) cnr _)
    simp [completedCallsFor_append]
  · simp [completedCallsFor_append]
  · refine le_trans (by simp [completedCallsFor_append]) (@cc_of_good env Unit _ ?_ _ tCode)
    apply goodM_ite env _
    · apply goodM_ite env _
      · apply goodM_bind (logM_good env _)
        intro _
        apply goodM_bind (sleepM_good env _ _)
        intro _
        exact attemptLoop_good env _ _ _ _ _ _
      · apply goodM_ite env _ (logM_good env _)
        apply goodM_bind (sleepM_good env _ _)
        intro _
        exact attemptLoop_good env _ _ _ _ _ _
    · apply goodM_ite env _ (logM_good env _) (logRespM_good env _ _)

/-- Helper: `max(1, limit)` is positive. -/
theorem pyMaxOne_pos (n : Int) : 1 ≤ pyMaxOne n := by
  unfold pyMaxOne
  split
  · exact le_refl 1
  · omega

/-- C4: with no stop pending, the four filters of the task-list loop act in
source order and without side effects: an already-completed item, a
non-whitelisted type and an excluded task code leave the state untouched
(the whole loop step is the loop on the remaining items from the same
state); a sensitive title only logs the skip line; in each of these cases
no `task/completed` call is made for the item.  An item passing all four
filters triggers at least one `task/completed` call for its task code. -/
theorem C4_filters (env : Env) (item : TaskItem) (rest : List TaskItem)
    (vc : Nat) (st : RunSt) (hstop : env.stopAt = none) :
    (item.completedStatus ≠ some 0 →
       itemLoop env (item :: rest) vc st = itemLoop env rest vc st)
    ∧ (item.completedStatus = some 0 → typeAllowed item.type = false →
       itemLoop env (item :: rest) vc st = itemLoop env rest vc st)
    ∧ (item.completedStatus = some 0 → typeAllowed item.type = true →
       titleSensitive item.title = true →
       itemLoop env (item :: rest) vc st
         = itemLoop env rest vc
             { st with trace := st.trace
                 ++ [.log ("跳过敏感任务: " ++ item.title)] })
    ∧ (item.completedStatus = some 0 → typeAllowed item.type = true →
       titleSensitive item.title = false →
       excluded_task_codes.contains item.taskCode = true →
       itemLoop env (item :: rest) vc st = itemLoop env rest vc st)
    ∧ (item.completedStatus = some 0 → typeAllowed item.type = true →
       titleSensitive item.title = false →
       excluded_task_codes.contains item.taskCode = false →
       completedCallsFor st.trace item.taskCode + 1
         ≤ completedCallsFor
             ((itemLoop env (item :: rest) vc st).state).trace item.taskCode) := by
  refine ⟨?_, ?_, ?_, ?_, ?_⟩
  · intro h1
    simp [itemLoop, M.bind_def, checkStopM_none hstop, h1]
  · intro h1 h2
    simp [itemLoop, M.bind_def, checkStopM_none hstop, h1, h2]
  · intro h1 h2 h3
    simp [itemLoop, M.bind_def, checkStopM_none hstop, h1, h2, h3, logM]
  · intro h1 h2 h3 h4
    have h4m : item.taskCode ∈ excluded_task_codes := by simpa using h4
    simp [itemLoop, M.bind_def, checkStopM_none hstop, h1, h2, h3, h4m]
  · intro h1 h2 h3 h4
    have h4m : ¬ item.taskCode ∈ excluded_task_codes := by simpa using h4
    simp only [itemLoop, M.bind_def, checkStopM_none hstop, h1, h2, h3, h4, h4m,
      bne_self_eq_false, Bool.not_false, Bool.not_true, if_true, if_false,
      Bool.false_eq_true, logM]
    obtain ⟨m, hm⟩ : ∃ m, pyMaxOne (item.dailyTaskLimit.getD 1) = m + 1 :=
      ⟨pyMaxOne (item.dailyTaskLimit.getD 1) - 1,
        by have := pyMaxOne_pos (item.dailyTaskLimit.getD 1); omega⟩
    rw [hm]
    cases hres : attemptLoop env item.title item.taskCode (base_wait item.type)
        (m + 1) 0 0
        { st with trace := st.trace ++ [.log ("执行: " ++ item.title)] } with
    | ok a st₂ =>
      show completedCallsFor st.trace item.taskCode + 1
        ≤ completedCallsFor
            ((itemLoop env rest (vc + 1) st₂).state).trace item.taskCode
      have h5 := attemptLoop_first_call env item.title item.taskCode
        (base_wait item.type) hstop m 0 0
        { st with trace := st.trace ++ [.log ("执行: " ++ item.title)] }
      rw [hres] at h5
      have h6 := cc_of_good (itemLoop_good env rest (vc + 1)) st₂ item.taskCode
      simp [completedCallsFor_append] at h5
      omega
    | err e st₂ =>
      show completedCallsFor st.trace item.taskCode + 1
        ≤ completedCallsFor st₂.trace item.taskCode
      have h5 := attemptLoop_first_call env item.title item.taskCode
        (base_wait item.type) hstop m 0 0
        { st with trace := st.trace ++ [.log ("执行: " ++ item.title)] }
      rw [hres] at h5
      simp [completedCallsFor_append] at h5
      omega

/-- C4 witness: the pass branch of the theorem at a concrete item and
oracle — a whitelisted, unfiltered browse item makes a completed-task
call. -/
theorem C4_filters_witness :
    1 ≤ completedCallsFor
        ((itemLoop envNR
            [{ title := "T", type := some 604, taskCode := "c9",
               completedStatus := some 0, dailyTaskLimit := some 1 }] 0 {}).state).trace
        "c9" := by
  have h := (C4_filters envNR
    { title := "T", type := some 604, taskCode := "c9",
      completedStatus := some 0, dailyTaskLimit := some 1 } [] 0 {} rfl).2.2.2.2
    rfl (by decide) (by decide) (by decide)
  simpa using h

end PangGuai